import Mathlib

/-!
# Black-Scholes pricing engine (`src/BlackScholes.cpp`)

A shallow embedding of `BlackScholes::normalPDF`, `normalCDF`, `calculateVanilla`,
`barrierPrice` and `calculate`, and theorems about them.

Modelling conventions.

* A C++ `double` is an element of a linearly ordered field `α`; rounding, overflow, infinities
  and NaN are outside the model.  The embedding of the source is computable and generic in
  `α`, so it can be evaluated over `ℚ`; the analytic statements are made over `ℝ`.
* The functions and constants of `<cmath>` that the source calls (`std::exp`, `std::log`,
  `std::sqrt`, `std::pow`, `std::erfc`, `M_PI`, `M_SQRT1_2`) are the fields of a record
  `Libm α` that every function takes as its first argument.  `realLibm` is the exact math
  library over `ℝ` (the only definitions that are not computable are `realLibm` and the exact
  complementary error function `erfcReal`).
* `std::string` is `String`, `std::max` is `max`, a `bool` test is a decidable proposition.
-/

namespace BlackScholes

/-- The part of the C math library that `BlackScholes.cpp` uses. -/
structure Libm (α : Type) where
  /-- The function `std::exp`. -/
  exp : α → α
  /-- The function `std::log`. -/
  log : α → α
  /-- The function `std::sqrt`. -/
  sqrt : α → α
  /-- The function `std::pow`. -/
  pow : α → α → α
  /-- The function `std::erfc`. -/
  erfc : α → α
  /-- The constant `M_PI`. -/
  M_PI : α
  /-- The constant `M_SQRT1_2`. -/
  M_SQRT1_2 : α

/-- Modelled from the spec: the record `OptionParams` is declared in `BlackScholes.h`, which is
not among the sources.  The fields are the ones `BlackScholes.cpp` reads, with the types of
section 6 of the specification (reals and string tokens). -/
structure OptionParams (α : Type) where
  strike : α
  timeToMaturity : α
  volatility : α
  riskFreeRate : α
  dividendYield : α
  type : String
  position : String
  quantity : α
  barrierType : String
  barrierLevel : α

/-- Modelled from the spec: the record `Greeks` is declared in `BlackScholes.h`, which is not
among the sources.  The fields are the fourteen fields `BlackScholes.cpp` writes. -/
structure Greeks (α : Type) where
  price : α
  delta : α
  gamma : α
  theta : α
  vega : α
  rho : α
  payoff : α
  timeValue : α
  speed : α
  zomma : α
  color : α
  vanna : α
  volga : α
  ultima : α

variable {α : Type} [LinearOrderedField α]

/-- The initial value `{0.0, ..., 0.0}` of a `Greeks` record (lines 25-26 and 256-257). -/
def Greeks.zero : Greeks α :=
  { price := 0, delta := 0, gamma := 0, theta := 0, vega := 0, rho := 0, payoff := 0,
    timeValue := 0, speed := 0, zomma := 0, color := 0, vanna := 0, volga := 0, ultima := 0 }

/-- The method `BlackScholes::normalPDF` (lines 9-11). -/
def normalPDF (m : Libm α) (x : α) : α :=
  m.exp (-0.5 * x * x) / m.sqrt (2 * m.M_PI)

/-- The method `BlackScholes::normalCDF` (lines 13-15). -/
def normalCDF (m : Libm α) (x : α) : α :=
  0.5 * m.erfc (-x * m.M_SQRT1_2)

/-- The test `params.type == "Call" || params.type == "call"` (lines 30, 70, 114, 150, 263). -/
def isCall (params : OptionParams α) : Prop :=
  params.type = "Call" ∨ params.type = "call"

instance (params : OptionParams α) : Decidable (isCall params) := by
  unfold isCall; infer_instance

/-- The method `BlackScholes::calculateVanilla` (lines 18-99). -/
def calculateVanilla (m : Libm α) (S : α) (params : OptionParams α) : Greeks α :=
  let K := params.strike
  let T := params.timeToMaturity
  let v := params.volatility
  let r := params.riskFreeRate
  let q := params.dividendYield
  let greeks : Greeks α := Greeks.zero
  if T ≤ 0 ∨ v ≤ 0 then
    if isCall params then
      { greeks with
        price := max (S - K) 0
        delta := if S > K then 1 else 0
        payoff := max (S - K) 0
        timeValue := 0 }
    else
      { greeks with
        price := max (K - S) 0
        delta := if S < K then -1 else 0
        payoff := max (K - S) 0
        timeValue := 0 }
  else
    let d1 := (m.log (S / K) + (r - q + 0.5 * v * v) * T) / (v * m.sqrt T)
    let d2 := d1 - v * m.sqrt T
    let Nd1 := normalCDF m d1
    let Nd2 := normalCDF m d2
    let nMinusd1 := normalCDF m (-d1)
    let nMinusd2 := normalCDF m (-d2)
    let nd1 := normalPDF m d1
    let ert := m.exp (-r * T)
    let eqt := m.exp (-q * T)
    let gamma_common := eqt * nd1 / (S * v * m.sqrt T)
    let vega_common := S * eqt * m.sqrt T * nd1
    let speed_common := -gamma_common / S * (d1 / (v * m.sqrt T) + 1)
    let zomma_common := gamma_common * (d1 * d2 - 1) / v
    let color_common :=
      -eqt * nd1 / (2 * S * T * v * m.sqrt T) *
        (2 * q * T + 1 + (2 * (r - q) * T - d2 * v * m.sqrt T) * d1 / (v * m.sqrt T))
    let vanna_common := -eqt * nd1 * d2 / v
    let volga_common := vega_common * d1 * d2 / v
    let ultima_common :=
      -vega_common * (d1 * d2 * (1 - d1 * d2) + d1 * d1 + d2 * d2) / (v * v)
    let greeks : Greeks α :=
      if isCall params then
        { greeks with
          price := S * eqt * Nd1 - K * ert * Nd2
          delta := eqt * Nd1
          gamma := gamma_common
          theta := -(S * eqt * nd1 * v) / (2 * m.sqrt T) - r * K * ert * Nd2 + q * S * eqt * Nd1
          vega := vega_common
          rho := K * T * ert * Nd2
          payoff := max (S - K) 0 }
      else
        { greeks with
          price := K * ert * nMinusd2 - S * eqt * nMinusd1
          delta := -eqt * nMinusd1
          gamma := gamma_common
          theta :=
            -(S * eqt * nd1 * v) / (2 * m.sqrt T) + r * K * ert * nMinusd2 - q * S * eqt * nMinusd1
          vega := vega_common
          rho := -K * T * ert * nMinusd2
          payoff := max (K - S) 0 }
    { greeks with
      timeValue := greeks.price - greeks.payoff
      speed := speed_common
      zomma := zomma_common
      color := color_common
      ultima := ultima_common
      vanna := vanna_common
      volga := volga_common }

/-- The local variable `mu` of `barrierPrice` (line 136). -/
def barrierMu (params : OptionParams α) : α :=
  (params.riskFreeRate - params.dividendYield - 0.5 * params.volatility * params.volatility) /
    (params.volatility * params.volatility)

/-- The local variable `x1` of `barrierPrice` (line 141). -/
def barrierX1 (m : Libm α) (S : α) (params : OptionParams α) : α :=
  m.log (S / params.strike) / (params.volatility * m.sqrt params.timeToMaturity) +
    (1 + barrierMu params) * params.volatility * m.sqrt params.timeToMaturity

/-- The local variable `x2` of `barrierPrice` (line 142). -/
def barrierX2 (m : Libm α) (S : α) (params : OptionParams α) : α :=
  m.log (S / params.barrierLevel) / (params.volatility * m.sqrt params.timeToMaturity) +
    (1 + barrierMu params) * params.volatility * m.sqrt params.timeToMaturity

/-- The local variable `y1` of `barrierPrice` (line 143). -/
def barrierY1 (m : Libm α) (S : α) (params : OptionParams α) : α :=
  m.log (params.barrierLevel * params.barrierLevel / (S * params.strike)) /
      (params.volatility * m.sqrt params.timeToMaturity) +
    (1 + barrierMu params) * params.volatility * m.sqrt params.timeToMaturity

/-- The local variable `y2` of `barrierPrice` (line 144). -/
def barrierY2 (m : Libm α) (S : α) (params : OptionParams α) : α :=
  m.log (params.barrierLevel / S) / (params.volatility * m.sqrt params.timeToMaturity) +
    (1 + barrierMu params) * params.volatility * m.sqrt params.timeToMaturity

/-- The local variable `phi` of `barrierPrice` (lines 149-152): `+1` for a call, `-1` for a
put. -/
def barrierPhi (params : OptionParams α) : α :=
  if isCall params then 1 else -1

/-- The local variable `HS_pow` of `barrierPrice` (line 155). -/
def barrierHSpow (m : Libm α) (S : α) (params : OptionParams α) : α :=
  m.pow (params.barrierLevel / S) (2 * (barrierMu params + 1))

/-- The local variable `A` of `barrierPrice` (lines 158-159). -/
def barrierA (m : Libm α) (S : α) (params : OptionParams α) : α :=
  let K := params.strike
  let T := params.timeToMaturity
  let v := params.volatility
  let phi := barrierPhi params
  let x1 := barrierX1 m S params
  let ert := m.exp (-params.riskFreeRate * T)
  let eqt := m.exp (-params.dividendYield * T)
  phi * S * eqt * normalCDF m (phi * x1) -
    phi * K * ert * normalCDF m (phi * (x1 - v * m.sqrt T))

/-- The local variable `B` of `barrierPrice` (lines 161-162). -/
def barrierB (m : Libm α) (S : α) (params : OptionParams α) : α :=
  let K := params.strike
  let T := params.timeToMaturity
  let v := params.volatility
  let phi := barrierPhi params
  let x2 := barrierX2 m S params
  let ert := m.exp (-params.riskFreeRate * T)
  let eqt := m.exp (-params.dividendYield * T)
  phi * S * eqt * normalCDF m (phi * x2) -
    phi * K * ert * normalCDF m (phi * (x2 - v * m.sqrt T))

/-- The local variable `C` of `barrierPrice` (lines 164-166). -/
def barrierC (m : Libm α) (S : α) (params : OptionParams α) : α :=
  let K := params.strike
  let T := params.timeToMaturity
  let v := params.volatility
  let H := params.barrierLevel
  let mu := barrierMu params
  let phi := barrierPhi params
  let y1 := barrierY1 m S params
  let ert := m.exp (-params.riskFreeRate * T)
  let eqt := m.exp (-params.dividendYield * T)
  phi * S * eqt * barrierHSpow m S params * normalCDF m (-phi * y1) -
    phi * K * ert * m.pow (H / S) (2 * mu) * normalCDF m (-phi * (y1 - v * m.sqrt T))

/-- The local variable `D` of `barrierPrice` (lines 168-170). -/
def barrierD (m : Libm α) (S : α) (params : OptionParams α) : α :=
  let K := params.strike
  let T := params.timeToMaturity
  let v := params.volatility
  let H := params.barrierLevel
  let mu := barrierMu params
  let phi := barrierPhi params
  let y2 := barrierY2 m S params
  let ert := m.exp (-params.riskFreeRate * T)
  let eqt := m.exp (-params.dividendYield * T)
  phi * S * eqt * barrierHSpow m S params * normalCDF m (-phi * y2) -
    phi * K * ert * m.pow (H / S) (2 * mu) * normalCDF m (-phi * (y2 - v * m.sqrt T))

/-- The local variable `intrinsic` of `barrierPrice` (line 115), which is also the local
variable `vanillaPayoff` of `calculate` (lines 264-265). -/
def intrinsic (S : α) (params : OptionParams α) : α :=
  if isCall params then max (S - params.strike) 0 else max (params.strike - S) 0

/-- The local variable `knockOutPrice` of `barrierPrice` (lines 173-210): the case analysis on
the option type, the barrier direction and `H <= K`, followed by the clamp
`std::max(knockOutPrice, 0.0)`. -/
def knockOutPrice (m : Libm α) (S : α) (params : OptionParams α) : α :=
  let K := params.strike
  let H := params.barrierLevel
  let A := barrierA m S params
  let B := barrierB m S params
  let C := barrierC m S params
  let D := barrierD m S params
  let knockOutPrice : α :=
    if isCall params then
      if params.barrierType = "DownOut" ∨ params.barrierType = "DownIn" then
        if H ≤ K then A - C else B - D
      else
        if H ≤ K then 0 else A - B + D
    else
      if params.barrierType = "DownOut" ∨ params.barrierType = "DownIn" then
        if H ≤ K then -A + B + C - D else 0
      else
        if H ≤ K then -A + C else -B + D
  max knockOutPrice 0

/-- The method `BlackScholes::barrierPrice` (lines 104-222).  The local variables `mu`, `x1`,
`x2`, `y1`, `y2`, `phi`, `HS_pow`, `A`, `B`, `C`, `D`, `intrinsic` and `knockOutPrice` are the
definitions above; the unused locals `lambda` and `z` (lines 137-138) have no effect on the
result and are left out. -/
def barrierPrice (m : Libm α) (S : α) (params : OptionParams α) : α :=
  let T := params.timeToMaturity
  let v := params.volatility
  let H := params.barrierLevel
  if T ≤ 0 ∨ v ≤ 0 ∨ H ≤ 0 then
    let intrinsic := intrinsic S params
    let knockedOut : Bool := false
    let knockedOut := if params.barrierType = "UpOut" ∧ S ≥ H then true else knockedOut
    let knockedOut := if params.barrierType = "DownOut" ∧ S ≤ H then true else knockedOut
    let knockedIn : Bool := true
    let knockedIn := if params.barrierType = "UpIn" ∧ S < H then false else knockedIn
    let knockedIn := if params.barrierType = "DownIn" ∧ S > H then false else knockedIn
    if params.barrierType = "UpOut" ∨ params.barrierType = "DownOut" then
      if knockedOut then 0 else intrinsic
    else
      if knockedIn then intrinsic else 0
  else
    let knockOutPrice := knockOutPrice m S params
    if params.barrierType = "UpIn" ∨ params.barrierType = "DownIn" then
      let vanillaParams := { params with barrierType := "None" }
      let vanillaGreeks := calculateVanilla m S vanillaParams
      max vanillaGreeks.price 0 - knockOutPrice
    else
      knockOutPrice

/-- The local variable `multiplier` of `calculate` (lines 232-235 and 375-378). -/
def positionMultiplier (params : OptionParams α) : α :=
  if params.position = "Short" ∨ params.position = "short" ∨ params.position = "-1" then -1
  else 1

/-- The test `hasBarrier` of `calculate` (line 226). -/
def hasBarrier (params : OptionParams α) : Prop :=
  ¬ params.barrierType = "" ∧ params.barrierType ≠ "None"

instance (params : OptionParams α) : Decidable (hasBarrier params) := by
  unfold hasBarrier; infer_instance

/-- The method `BlackScholes::calculate` (lines 225-397). -/
def calculate (m : Libm α) (S : α) (params : OptionParams α) : Greeks α :=
  if ¬ hasBarrier params then
    let greeks := calculateVanilla m S params
    let multiplier : α := positionMultiplier params
    let totalMult := multiplier * params.quantity
    { greeks with
      price := greeks.price * totalMult
      delta := greeks.delta * totalMult
      gamma := greeks.gamma * totalMult
      theta := greeks.theta * totalMult
      vega := greeks.vega * totalMult
      rho := greeks.rho * totalMult
      payoff := greeks.payoff * totalMult
      timeValue := greeks.timeValue * totalMult
      speed := greeks.speed * totalMult
      zomma := greeks.zomma * totalMult
      color := greeks.color * totalMult
      ultima := greeks.ultima * totalMult }
  else
    let greeks : Greeks α := Greeks.zero
    let price := barrierPrice m S params
    let vanillaPayoff := intrinsic S params
    let active : Bool := true
    let active :=
      if params.barrierType = "UpOut" ∧ S ≥ params.barrierLevel then false else active
    let active :=
      if params.barrierType = "DownOut" ∧ S ≤ params.barrierLevel then false else active
    let active :=
      if params.barrierType = "UpIn" then decide (S ≥ params.barrierLevel) else active
    let active :=
      if params.barrierType = "DownIn" then decide (S ≤ params.barrierLevel) else active
    let payoff := if active then vanillaPayoff else 0
    let timeValue := price - payoff
    let dS := S * 0.001
    let dS := if dS < 0.0001 then 0.0001 else dS
    let priceUp := barrierPrice m (S + dS) params
    let priceDown := barrierPrice m (S - dS) params
    let delta := (priceUp - priceDown) / (2 * dS)
    let gamma := (priceUp - 2 * price + priceDown) / (dS * dS)
    let dS3 := S * 0.002
    let dS3 := if dS3 < 0.0002 then 0.0002 else dS3
    let p2u := barrierPrice m (S + 2 * dS3) params
    let p1u := barrierPrice m (S + dS3) params
    let p1d := barrierPrice m (S - dS3) params
    let p2d := barrierPrice m (S - 2 * dS3) params
    let speed := (p2u - 2 * p1u + 2 * p1d - p2d) / (2 * dS3 * dS3 * dS3)
    let dT : α := 1 / 365
    let theta :=
      if params.timeToMaturity > dT then
        let pT := { params with timeToMaturity := params.timeToMaturity - dT }
        (barrierPrice m S pT - price) / dT
      else greeks.theta
    let dv : α := 0.001
    let pVu := { params with volatility := params.volatility + dv }
    let pVd := { params with volatility := params.volatility - dv }
    let priceVu := barrierPrice m S pVu
    let priceVd := barrierPrice m S pVd
    let vega := (priceVu - priceVd) / (2 * dv)
    let dr : α := 0.0001
    let pRu := { params with riskFreeRate := params.riskFreeRate + dr }
    let pRd := { params with riskFreeRate := params.riskFreeRate - dr }
    let rho := (barrierPrice m S pRu - barrierPrice m S pRd) / (2 * dr)
    let gammaVu :=
      (barrierPrice m (S + dS) pVu - 2 * priceVu + barrierPrice m (S - dS) pVu) / (dS * dS)
    let gammaVd :=
      (barrierPrice m (S + dS) pVd - 2 * priceVd + barrierPrice m (S - dS) pVd) / (dS * dS)
    let zomma := (gammaVu - gammaVd) / (2 * dv)
    let color :=
      if params.timeToMaturity > dT then
        let pTm := { params with timeToMaturity := params.timeToMaturity - dT }
        let priceTm := barrierPrice m S pTm
        let gammaTm :=
          (barrierPrice m (S + dS) pTm - 2 * priceTm + barrierPrice m (S - dS) pTm) / (dS * dS)
        (gammaTm - gamma) / dT
      else greeks.color
    let deltaVu := (barrierPrice m (S + dS) pVu - barrierPrice m (S - dS) pVu) / (2 * dS)
    let deltaVd := (barrierPrice m (S + dS) pVd - barrierPrice m (S - dS) pVd) / (2 * dS)
    let vanna := (deltaVu - deltaVd) / (2 * dv)
    let volga := (priceVu - 2 * price + priceVd) / (dv * dv)
    let dv3 : α := 0.002
    let p2Vu := { params with volatility := params.volatility + 2 * dv3 }
    let p1Vu := { params with volatility := params.volatility + dv3 }
    let p1Vd := { params with volatility := params.volatility - dv3 }
    let p2Vd := { params with volatility := params.volatility - 2 * dv3 }
    let price2Vu := barrierPrice m S p2Vu
    let price1Vu := barrierPrice m S p1Vu
    let price1Vd := barrierPrice m S p1Vd
    let price2Vd := barrierPrice m S p2Vd
    let ultima := (price2Vu - 2 * price1Vu + 2 * price1Vd - price2Vd) / (2 * dv3 * dv3 * dv3)
    let multiplier : α := positionMultiplier params
    let totalMult := multiplier * params.quantity
    { price := price * totalMult
      delta := delta * totalMult
      gamma := gamma * totalMult
      theta := theta * totalMult
      vega := vega * totalMult
      rho := rho * totalMult
      payoff := payoff * totalMult
      timeValue := timeValue * totalMult
      speed := speed * totalMult
      zomma := zomma * totalMult
      color := color * totalMult
      ultima := ultima * totalMult
      vanna := vanna * totalMult
      volga := volga * totalMult }

/-! ## The exact math library over the reals -/

/-- The exact complementary error function `erfc x = 2/√π · ∫_x^∞ exp (-t²) dt`, the function
that `std::erfc` approximates. -/
noncomputable def erfcReal (x : ℝ) : ℝ :=
  2 / Real.sqrt Real.pi * ∫ t in Set.Ioi x, Real.exp (-t ^ 2)

/-- The math library over `ℝ` with every function exact: `exp`, `log`, `sqrt`, the real power,
`erfc`, and the constants `π` and `1/√2`. -/
noncomputable def realLibm : Libm ℝ where
  exp := Real.exp
  log := Real.log
  sqrt := Real.sqrt
  pow := fun x y => x ^ y
  erfc := erfcReal
  M_PI := Real.pi
  M_SQRT1_2 := 1 / Real.sqrt 2

/-- The local variable `d1` of `calculateVanilla` (lines 43-44). -/
def vanillaD1 (m : Libm α) (S : α) (params : OptionParams α) : α :=
  (m.log (S / params.strike) +
      (params.riskFreeRate - params.dividendYield + 0.5 * params.volatility * params.volatility) *
        params.timeToMaturity) /
    (params.volatility * m.sqrt params.timeToMaturity)

/-- The local variable `d2` of `calculateVanilla` (line 45). -/
def vanillaD2 (m : Libm α) (S : α) (params : OptionParams α) : α :=
  vanillaD1 m S params - params.volatility * m.sqrt params.timeToMaturity

/-- The market data of the reference scenario of section 8 of the specification
(`K = 100`, `T = 1`, `σ = 0.2`, `r = 0.05`, `q = 0`, no barrier), with the option type, the
position and the quantity left open. -/
def referenceParams (type position : String) (quantity : α) : OptionParams α :=
  { strike := 100, timeToMaturity := 1, volatility := 0.2, riskFreeRate := 0.05,
    dividendYield := 0, type := type, position := position, quantity := quantity,
    barrierType := "None", barrierLevel := 0 }

/-- The reference scenario with a barrier: the market data of `referenceParams` with barrier
type `barrierType` and barrier level `H`. -/
def referenceBarrier (type position : String) (quantity : α) (barrierType : String) (H : α) :
    OptionParams α :=
  { referenceParams type position quantity with barrierType := barrierType, barrierLevel := H }

/-- An up-and-out call with strike 100 and barrier 500, one year to maturity, volatility 20%,
interest rate 1% and dividend yield 3% (so that `mu = -1`). -/
def upOutCall : OptionParams α :=
  { strike := 100, timeToMaturity := 1, volatility := 0.2, riskFreeRate := 0.01,
    dividendYield := 0.03, type := "Call", position := "Long", quantity := 1,
    barrierType := "UpOut", barrierLevel := 500 }

/-- The case table of section 4.3 of the specification, which combines the terms `A`, `B`, `C`,
`D` into the knock-out price before the clamp.  The keys are the option type (`call`), the
barrier direction (`down`) and the comparison of the barrier with the strike (`hLeK` for
`H ≤ K`, otherwise `H > K`). -/
def knockOutTable (call down hLeK : Bool) (A B C D : α) : α :=
  match call, down, hLeK with
  | true, true, true => A - C
  | true, true, false => B - D
  | true, false, true => 0
  | true, false, false => A - B + D
  | false, true, true => -A + B + C - D
  | false, true, false => 0
  | false, false, true => -A + C
  | false, false, false => -B + D

/-- The local variable `active` of `calculate` (lines 267-275). -/
def barrierActive (S : α) (params : OptionParams α) : Bool :=
  let active : Bool := true
  let active :=
    if params.barrierType = "UpOut" ∧ S ≥ params.barrierLevel then false else active
  let active :=
    if params.barrierType = "DownOut" ∧ S ≤ params.barrierLevel then false else active
  let active :=
    if params.barrierType = "UpIn" then decide (S ≥ params.barrierLevel) else active
  let active :=
    if params.barrierType = "DownIn" then decide (S ≤ params.barrierLevel) else active
  active

/-! ## The Gaussian tail integral -/

section GaussTail
open MeasureTheory Set

theorem integrable_gauss : Integrable (fun t : ℝ => Real.exp (-t ^ 2)) := by
  simpa using integrable_exp_neg_mul_sq (b := 1) one_pos

theorem integral_gauss : ∫ t : ℝ, Real.exp (-t ^ 2) = Real.sqrt Real.pi := by
  simpa using integral_gaussian 1

theorem gauss_tail_nonneg (x : ℝ) : 0 ≤ ∫ t in Ioi x, Real.exp (-t ^ 2) :=
  setIntegral_nonneg measurableSet_Ioi fun _ _ => (Real.exp_pos _).le

theorem gauss_tail_neg (x : ℝ) :
    ∫ t in Ioi (-x), Real.exp (-t ^ 2) = ∫ t in Iic x, Real.exp (-t ^ 2) := by
  have h := integral_comp_neg_Iic x (fun t : ℝ => Real.exp (-t ^ 2))
  simpa using h.symm

theorem gauss_tail_add_neg (x : ℝ) :
    (∫ t in Ioi x, Real.exp (-t ^ 2)) + ∫ t in Ioi (-x), Real.exp (-t ^ 2)
      = Real.sqrt Real.pi := by
  rw [gauss_tail_neg, add_comm,
    intervalIntegral.integral_Iic_add_Ioi integrable_gauss.integrableOn
      integrable_gauss.integrableOn,
    integral_gauss]

theorem gauss_tail_anti {x y : ℝ} (h : x ≤ y) :
    ∫ t in Ioi y, Real.exp (-t ^ 2) ≤ ∫ t in Ioi x, Real.exp (-t ^ 2) :=
  setIntegral_mono_set integrable_gauss.integrableOn
    (Filter.Eventually.of_forall fun _ => (Real.exp_pos _).le)
    (Filter.Eventually.of_forall (Ioi_subset_Ioi h))

/-- Translation of the integration variable by `h`. -/
theorem gauss_tail_shift (x h : ℝ) :
    ∫ t in Ioi x, Real.exp (-t ^ 2) = ∫ u in Ioi (x + h), Real.exp (-(u - h) ^ 2) := by
  have A : MeasurableEmbedding fun u : ℝ => u + -h := measurableEmbedding_addRight (-h)
  have key :=
    MeasurableEmbedding.setIntegral_map (μ := volume) A (fun t : ℝ => Real.exp (-t ^ 2)) (Ioi x)
  rw [map_add_right_eq_self volume (-h)] at key
  have hpre : Set.preimage (fun u : ℝ => u + -h) (Ioi x) = Ioi (x + h) := by
    ext u; simp [lt_sub_iff_add_lt]
  rw [key, hpre]
  simp [sub_eq_add_neg]

/-- On `(x + h, ∞)` with `h ≥ 0` the translated integrand dominates
`exp (2xh + h²) · exp (-u²)`. -/
theorem gauss_tail_shift_le (x h : ℝ) (hh : 0 ≤ h) :
    Real.exp (2 * x * h + h ^ 2) * ∫ t in Ioi (x + h), Real.exp (-t ^ 2)
      ≤ ∫ t in Ioi x, Real.exp (-t ^ 2) := by
  rw [gauss_tail_shift x h, ← integral_mul_left]
  refine setIntegral_mono_on ?_ ?_ measurableSet_Ioi ?_
  · exact (integrable_gauss.const_mul _).integrableOn
  · exact (integrable_gauss.comp_sub_right h).integrableOn
  · intro u hu
    rw [← Real.exp_add]
    apply Real.exp_le_exp.mpr
    have hu2 : x + h < u := hu
    nlinarith [mul_nonneg hh (sub_nonneg.mpr hu2.le)]

end GaussTail

/-! ## The exact normal distribution function -/

theorem sqrt_pi_pos : 0 < Real.sqrt Real.pi := Real.sqrt_pos.mpr Real.pi_pos

theorem erfcReal_add_neg (x : ℝ) : erfcReal x + erfcReal (-x) = 2 := by
  unfold erfcReal
  rw [← mul_add, gauss_tail_add_neg]
  exact div_mul_cancel₀ 2 sqrt_pi_pos.ne.symm

theorem erfcReal_nonneg (x : ℝ) : 0 ≤ erfcReal x :=
  mul_nonneg (div_nonneg zero_le_two sqrt_pi_pos.le) (gauss_tail_nonneg x)

theorem erfcReal_anti {x y : ℝ} (h : x ≤ y) : erfcReal y ≤ erfcReal x :=
  mul_le_mul_of_nonneg_left (gauss_tail_anti h) (div_nonneg zero_le_two sqrt_pi_pos.le)

theorem erfcReal_shift_le (x h : ℝ) (hh : 0 ≤ h) :
    Real.exp (2 * x * h + h ^ 2) * erfcReal (x + h) ≤ erfcReal x := by
  unfold erfcReal
  have key := mul_le_mul_of_nonneg_left (gauss_tail_shift_le x h hh)
    (div_nonneg zero_le_two sqrt_pi_pos.le)
  linarith [key]

theorem normalCDF_real (x : ℝ) :
    normalCDF realLibm x = 1 / 2 * erfcReal (-x * (1 / Real.sqrt 2)) := by
  unfold normalCDF
  rw [show (0.5 : ℝ) = 1 / 2 by norm_num]
  rfl

/-- Symmetry of the normal distribution function: `N(x) + N(-x) = 1`. -/
theorem normalCDF_add_neg (x : ℝ) : normalCDF realLibm x + normalCDF realLibm (-x) = 1 := by
  have h := erfcReal_add_neg (-x * (1 / Real.sqrt 2))
  rw [normalCDF_real, normalCDF_real]
  rw [show - -x * (1 / Real.sqrt 2) = -(-x * (1 / Real.sqrt 2)) by ring]
  linarith

theorem normalCDF_nonneg (x : ℝ) : 0 ≤ normalCDF realLibm x := by
  rw [normalCDF_real]
  exact mul_nonneg (by norm_num) (erfcReal_nonneg _)

theorem normalCDF_le_one (x : ℝ) : normalCDF realLibm x ≤ 1 := by
  have h1 := normalCDF_add_neg x
  have h2 := normalCDF_nonneg (-x)
  linarith

theorem normalCDF_mono {x y : ℝ} (h : x ≤ y) : normalCDF realLibm x ≤ normalCDF realLibm y := by
  rw [normalCDF_real, normalCDF_real]
  have hs : 0 ≤ 1 / Real.sqrt 2 := by positivity
  have : -y * (1 / Real.sqrt 2) ≤ -x * (1 / Real.sqrt 2) :=
    mul_le_mul_of_nonneg_right (neg_le_neg h) hs
  have := erfcReal_anti this
  linarith

theorem normalCDF_zero : normalCDF realLibm 0 = 1 / 2 := by
  have h := normalCDF_add_neg 0
  rw [neg_zero] at h
  linarith

/-- The inequality behind the positivity of the Black-Scholes price:
`exp (-d·s + s²/2) · N(d - s) ≤ N(d)` for `s ≥ 0`. -/
theorem normalCDF_shift_le (d s : ℝ) (hs : 0 ≤ s) :
    Real.exp (-d * s + s ^ 2 / 2) * normalCDF realLibm (d - s) ≤ normalCDF realLibm d := by
  have h2 : 0 < Real.sqrt 2 := Real.sqrt_pos.mpr two_pos
  have hsq : Real.sqrt 2 * Real.sqrt 2 = 2 := Real.mul_self_sqrt zero_le_two
  have key := erfcReal_shift_le (-d * (1 / Real.sqrt 2)) (s * (1 / Real.sqrt 2))
    (mul_nonneg hs (by positivity))
  have e1 : 2 * (-d * (1 / Real.sqrt 2)) * (s * (1 / Real.sqrt 2)) + (s * (1 / Real.sqrt 2)) ^ 2
      = -d * s + s ^ 2 / 2 := by
    field_simp
    nlinarith [hsq]
  have e2 : -d * (1 / Real.sqrt 2) + s * (1 / Real.sqrt 2) = -(d - s) * (1 / Real.sqrt 2) := by
    ring
  rw [e1, e2] at key
  rw [normalCDF_real, normalCDF_real]
  nlinarith [key]

/-! ## Unfolding `calculateVanilla` and `calculate` -/

section Unfold
variable (m : Libm α) (S : α) (params : OptionParams α)

theorem calculate_noBarrier (h : ¬ hasBarrier params) :
    calculate m S params =
      { calculateVanilla m S params with
        price := (calculateVanilla m S params).price * (positionMultiplier params * params.quantity)
        delta := (calculateVanilla m S params).delta * (positionMultiplier params * params.quantity)
        gamma := (calculateVanilla m S params).gamma * (positionMultiplier params * params.quantity)
        theta := (calculateVanilla m S params).theta * (positionMultiplier params * params.quantity)
        vega := (calculateVanilla m S params).vega * (positionMultiplier params * params.quantity)
        rho := (calculateVanilla m S params).rho * (positionMultiplier params * params.quantity)
        payoff :=
          (calculateVanilla m S params).payoff * (positionMultiplier params * params.quantity)
        timeValue :=
          (calculateVanilla m S params).timeValue * (positionMultiplier params * params.quantity)
        speed := (calculateVanilla m S params).speed * (positionMultiplier params * params.quantity)
        zomma := (calculateVanilla m S params).zomma * (positionMultiplier params * params.quantity)
        color := (calculateVanilla m S params).color * (positionMultiplier params * params.quantity)
        ultima :=
          (calculateVanilla m S params).ultima * (positionMultiplier params * params.quantity) } := by
  unfold calculate
  rw [if_pos h]

theorem calculate_barrier_price (h : hasBarrier params) :
    (calculate m S params).price =
      barrierPrice m S params * (positionMultiplier params * params.quantity) := by
  unfold calculate
  rw [if_neg (not_not.mpr h)]

theorem calculateVanilla_degenerate
    (h : params.timeToMaturity ≤ 0 ∨ params.volatility ≤ 0) :
    calculateVanilla m S params =
      if isCall params then
        { (Greeks.zero : Greeks α) with
          price := max (S - params.strike) 0
          delta := if S > params.strike then 1 else 0
          payoff := max (S - params.strike) 0
          timeValue := 0 }
      else
        { (Greeks.zero : Greeks α) with
          price := max (params.strike - S) 0
          delta := if S < params.strike then -1 else 0
          payoff := max (params.strike - S) 0
          timeValue := 0 } := by
  unfold calculateVanilla
  simp only [if_pos h]

theorem calculateVanilla_price_call
    (h : ¬ (params.timeToMaturity ≤ 0 ∨ params.volatility ≤ 0)) (hc : isCall params) :
    (calculateVanilla m S params).price =
      S * m.exp (-params.dividendYield * params.timeToMaturity) *
          normalCDF m (vanillaD1 m S params) -
        params.strike * m.exp (-params.riskFreeRate * params.timeToMaturity) *
          normalCDF m (vanillaD2 m S params) := by
  unfold calculateVanilla vanillaD2 vanillaD1
  simp only [if_neg h, if_pos hc]

theorem calculateVanilla_price_put
    (h : ¬ (params.timeToMaturity ≤ 0 ∨ params.volatility ≤ 0)) (hc : ¬ isCall params) :
    (calculateVanilla m S params).price =
      params.strike * m.exp (-params.riskFreeRate * params.timeToMaturity) *
          normalCDF m (-vanillaD2 m S params) -
        S * m.exp (-params.dividendYield * params.timeToMaturity) *
          normalCDF m (-vanillaD1 m S params) := by
  unfold calculateVanilla vanillaD2 vanillaD1
  simp only [if_neg h, if_neg hc]

theorem calculateVanilla_vanna
    (h : ¬ (params.timeToMaturity ≤ 0 ∨ params.volatility ≤ 0)) :
    (calculateVanilla m S params).vanna =
      -m.exp (-params.dividendYield * params.timeToMaturity) *
          normalPDF m (vanillaD1 m S params) * vanillaD2 m S params / params.volatility := by
  unfold calculateVanilla vanillaD2 vanillaD1
  simp only [if_neg h]

end Unfold

/-! ## The reference scenario -/

theorem reference_not_hasBarrier (t pos : String) (n : α) :
    ¬ hasBarrier (referenceParams t pos n) := by
  simp [hasBarrier, referenceParams]

theorem reference_standard (t pos : String) (n : ℝ) :
    ¬ ((referenceParams t pos n).timeToMaturity ≤ 0 ∨ (referenceParams t pos n).volatility ≤ 0) := by
  simp only [referenceParams]
  norm_num

theorem reference_d1 (t pos : String) (n : ℝ) :
    vanillaD1 realLibm 100 (referenceParams t pos n) = 0.35 := by
  simp only [vanillaD1, referenceParams, realLibm]
  rw [Real.sqrt_one, div_self (by norm_num : (100 : ℝ) ≠ 0), Real.log_one]
  norm_num

theorem reference_d2 (t pos : String) (n : ℝ) :
    vanillaD2 realLibm 100 (referenceParams t pos n) = 0.15 := by
  rw [vanillaD2, reference_d1]
  simp only [referenceParams, realLibm]
  rw [Real.sqrt_one]
  norm_num

theorem normalPDF_pos (x : ℝ) : 0 < normalPDF realLibm x := by
  unfold normalPDF
  simp only [realLibm]
  exact div_pos (Real.exp_pos _) (Real.sqrt_pos.mpr (by positivity))

theorem reference_vanna_ne_zero (t pos : String) (n : ℝ) :
    (calculateVanilla realLibm 100 (referenceParams t pos n)).vanna ≠ 0 := by
  rw [calculateVanilla_vanna _ _ _ (reference_standard t pos n), reference_d1, reference_d2]
  have h1 := normalPDF_pos 0.35
  have h2 : 0 < realLibm.exp
      (-(referenceParams t pos n).dividendYield * (referenceParams t pos n).timeToMaturity) :=
    Real.exp_pos _
  have h3 : (referenceParams t pos n).volatility = 0.2 := rfl
  rw [h3]
  have : 0 < realLibm.exp
      (-(referenceParams t pos n).dividendYield * (referenceParams t pos n).timeToMaturity) *
        normalPDF realLibm 0.35 * 0.15 / 0.2 := by positivity
  intro h
  rw [neg_mul, neg_mul, neg_div] at h
  linarith

/-! ## C1 -/

/-- C1 (the code departs from the claim): on the no-barrier path `calculate` leaves `vanna`
(and `volga`) out of the scaling by `multiplier × quantity`.  For the reference call held
`Short` in quantity 1 the returned `vanna` is the unscaled `vanna` of `calculateVanilla`, which
is not that value multiplied by `multiplier × quantity = -1`. -/
theorem calculate_vanilla_vanna_unscaled :
    (calculate realLibm 100 (referenceParams "Call" "Short" 1)).vanna =
        (calculateVanilla realLibm 100 (referenceParams "Call" "Short" 1)).vanna ∧
      positionMultiplier (referenceParams "Call" "Short" (1 : ℝ)) *
          (referenceParams "Call" "Short" (1 : ℝ)).quantity = -1 ∧
      (calculate realLibm 100 (referenceParams "Call" "Short" 1)).vanna ≠
        (calculateVanilla realLibm 100 (referenceParams "Call" "Short" 1)).vanna *
          (positionMultiplier (referenceParams "Call" "Short" (1 : ℝ)) *
            (referenceParams "Call" "Short" (1 : ℝ)).quantity) := by
  have hm : positionMultiplier (referenceParams "Call" "Short" (1 : ℝ)) *
      (referenceParams "Call" "Short" (1 : ℝ)).quantity = -1 := by
    simp [positionMultiplier, referenceParams]
  have hv : (calculate realLibm 100 (referenceParams "Call" "Short" 1)).vanna =
      (calculateVanilla realLibm 100 (referenceParams "Call" "Short" 1)).vanna := by
    rw [calculate_noBarrier _ _ _ (reference_not_hasBarrier _ _ _)]
  refine ⟨hv, hm, ?_⟩
  rw [hv, hm]
  intro h
  have := reference_vanna_ne_zero "Call" "Short" 1
  apply this
  linarith

/-! ## C2 -/

theorem positionMultiplier_long (params : OptionParams α) (h : params.position = "Long") :
    positionMultiplier params = 1 := by
  simp [positionMultiplier, h]

theorem not_hasBarrier_of_none {β : Type} (params : OptionParams β)
    (h : params.barrierType = "" ∨ params.barrierType = "None") : ¬ hasBarrier params := by
  unfold hasBarrier
  rcases h with h | h <;> simp [h]

/-- C2: put-call parity.  For a record with `T > 0`, `σ > 0`, no barrier, position `Long` and
quantity 1, and for every spot `S` (and every `K`, `r`, `q`), the price `calculate` returns for
type `Call` minus the price it returns for type `Put` is `S·e^{-qT} − K·e^{-rT}`, with the
exact math library over the reals. -/
theorem put_call_parity (S : ℝ) (params : OptionParams ℝ)
    (hT : 0 < params.timeToMaturity) (hv : 0 < params.volatility)
    (hb : params.barrierType = "" ∨ params.barrierType = "None")
    (hpos : params.position = "Long") (hq : params.quantity = 1) :
    (calculate realLibm S { params with type := "Call" }).price -
        (calculate realLibm S { params with type := "Put" }).price =
      S * Real.exp (-(params.dividendYield * params.timeToMaturity)) -
        params.strike * Real.exp (-(params.riskFreeRate * params.timeToMaturity)) := by
  have hstd : ¬ (params.timeToMaturity ≤ 0 ∨ params.volatility ≤ 0) := by
    rintro (h | h) <;> linarith
  have hc : isCall { params with type := "Call" } := Or.inl rfl
  have hp : ¬ isCall { params with type := "Put" } := by simp [isCall]
  rw [calculate_noBarrier _ _ _ (not_hasBarrier_of_none { params with type := "Call" } hb),
    calculate_noBarrier _ _ _ (not_hasBarrier_of_none { params with type := "Put" } hb)]
  simp only
  rw [positionMultiplier_long { params with type := "Call" } hpos,
    positionMultiplier_long { params with type := "Put" } hpos,
    calculateVanilla_price_call _ _ { params with type := "Call" } hstd hc,
    calculateVanilla_price_put _ _ { params with type := "Put" } hstd hp]
  have e1 : vanillaD1 realLibm S { params with type := "Put" } =
      vanillaD1 realLibm S { params with type := "Call" } := rfl
  have e2 : vanillaD2 realLibm S { params with type := "Put" } =
      vanillaD2 realLibm S { params with type := "Call" } := rfl
  rw [e1, e2]
  have n1 := normalCDF_add_neg (vanillaD1 realLibm S { params with type := "Call" })
  have n2 := normalCDF_add_neg (vanillaD2 realLibm S { params with type := "Call" })
  simp only [hq, realLibm, neg_mul] at *
  linear_combination
    S * Real.exp (-(params.dividendYield * params.timeToMaturity)) * n1 -
      params.strike * Real.exp (-(params.riskFreeRate * params.timeToMaturity)) * n2

/-- The witness of C2: the reference scenario held `Long` in quantity 1. -/
theorem put_call_parity_witness :
    (calculate realLibm 100 { referenceParams "Call" "Long" 1 with type := "Call" }).price -
        (calculate realLibm 100 { referenceParams "Call" "Long" 1 with type := "Put" }).price =
      100 * Real.exp (-((referenceParams "Call" "Long" (1 : ℝ)).dividendYield *
          (referenceParams "Call" "Long" (1 : ℝ)).timeToMaturity)) -
        (referenceParams "Call" "Long" (1 : ℝ)).strike *
          Real.exp (-((referenceParams "Call" "Long" (1 : ℝ)).riskFreeRate *
            (referenceParams "Call" "Long" (1 : ℝ)).timeToMaturity)) :=
  put_call_parity 100 (referenceParams "Call" "Long" 1)
    (by simp [referenceParams]) (by simp only [referenceParams]; norm_num)
    (Or.inr rfl) rfl rfl

/-! ## Unfolding `barrierPrice` -/

section UnfoldBarrier
variable (m : Libm α) (S : α) (params : OptionParams α)

theorem barrierPrice_degenerate_upOut
    (h : params.timeToMaturity ≤ 0 ∨ params.volatility ≤ 0 ∨ params.barrierLevel ≤ 0)
    (hb : params.barrierType = "UpOut") :
    barrierPrice m S params = if S ≥ params.barrierLevel then 0 else intrinsic S params := by
  unfold barrierPrice
  simp only [if_pos h, hb]
  by_cases hs : S ≥ params.barrierLevel <;> simp [hs]

theorem barrierPrice_degenerate_downOut
    (h : params.timeToMaturity ≤ 0 ∨ params.volatility ≤ 0 ∨ params.barrierLevel ≤ 0)
    (hb : params.barrierType = "DownOut") :
    barrierPrice m S params = if S ≤ params.barrierLevel then 0 else intrinsic S params := by
  unfold barrierPrice
  simp only [if_pos h, hb]
  by_cases hs : S ≤ params.barrierLevel <;> simp [hs]

theorem barrierPrice_degenerate_upIn
    (h : params.timeToMaturity ≤ 0 ∨ params.volatility ≤ 0 ∨ params.barrierLevel ≤ 0)
    (hb : params.barrierType = "UpIn") :
    barrierPrice m S params = if S < params.barrierLevel then 0 else intrinsic S params := by
  unfold barrierPrice
  simp only [if_pos h, hb]
  by_cases hs : S < params.barrierLevel <;> simp [hs]

theorem barrierPrice_degenerate_downIn
    (h : params.timeToMaturity ≤ 0 ∨ params.volatility ≤ 0 ∨ params.barrierLevel ≤ 0)
    (hb : params.barrierType = "DownIn") :
    barrierPrice m S params = if S > params.barrierLevel then 0 else intrinsic S params := by
  unfold barrierPrice
  simp only [if_pos h, hb]
  by_cases hs : S > params.barrierLevel <;> simp [hs]

theorem barrierPrice_standard_out
    (h : ¬ (params.timeToMaturity ≤ 0 ∨ params.volatility ≤ 0 ∨ params.barrierLevel ≤ 0))
    (hb : ¬ (params.barrierType = "UpIn" ∨ params.barrierType = "DownIn")) :
    barrierPrice m S params = knockOutPrice m S params := by
  unfold barrierPrice
  simp only [if_neg h, if_neg hb]

theorem barrierPrice_standard_in
    (h : ¬ (params.timeToMaturity ≤ 0 ∨ params.volatility ≤ 0 ∨ params.barrierLevel ≤ 0))
    (hb : params.barrierType = "UpIn" ∨ params.barrierType = "DownIn") :
    barrierPrice m S params =
      max (calculateVanilla m S { params with barrierType := "None" }).price 0 -
        knockOutPrice m S params := by
  unfold barrierPrice
  simp only [if_neg h, if_pos hb]

theorem knockOutPrice_nonneg : 0 ≤ knockOutPrice m S params := by
  unfold knockOutPrice
  exact le_max_right _ _

theorem intrinsic_nonneg : 0 ≤ intrinsic S params := by
  unfold intrinsic
  split <;> exact le_max_right _ _

/-- The knock-out price depends on the barrier type only through the test
`barrierType == "DownOut" || barrierType == "DownIn"`. -/
theorem knockOutPrice_congr (b1 b2 : String)
    (h : (b1 = "DownOut" ∨ b1 = "DownIn") ↔ (b2 = "DownOut" ∨ b2 = "DownIn")) :
    knockOutPrice m S { params with barrierType := b1 } =
      knockOutPrice m S { params with barrierType := b2 } := by
  have eA : barrierA m S { params with barrierType := b1 } =
      barrierA m S { params with barrierType := b2 } := rfl
  have eB : barrierB m S { params with barrierType := b1 } =
      barrierB m S { params with barrierType := b2 } := rfl
  have eC : barrierC m S { params with barrierType := b1 } =
      barrierC m S { params with barrierType := b2 } := rfl
  have eD : barrierD m S { params with barrierType := b1 } =
      barrierD m S { params with barrierType := b2 } := rfl
  have eI : isCall { params with barrierType := b1 } ↔
      isCall { params with barrierType := b2 } := Iff.rfl
  unfold knockOutPrice
  simp only [eA, eB, eC, eD, eI, h]

end UnfoldBarrier

/-! ## C3 -/

/-- The call leg: if `d·s = log (a/b) + s²/2` then `b·N(d - s) ≤ a·N(d)`. -/
theorem bs_call_nonneg (a b s d : ℝ) (ha : 0 < a) (hb : 0 < b) (hs : 0 ≤ s)
    (hd : d * s = Real.log (a / b) + s ^ 2 / 2) :
    0 ≤ a * normalCDF realLibm d - b * normalCDF realLibm (d - s) := by
  have key := normalCDF_shift_le d s hs
  have he : Real.exp (-d * s + s ^ 2 / 2) = b / a := by
    rw [show -d * s + s ^ 2 / 2 = -Real.log (a / b) by linarith, Real.exp_neg,
      Real.exp_log (div_pos ha hb), inv_div]
  rw [he] at key
  have := mul_le_mul_of_nonneg_left key ha.le
  rw [← mul_assoc, mul_div_cancel₀ b ha.ne.symm] at this
  linarith

/-- The put leg: if `d·s = log (a/b) + s²/2` then `a·N(-d) ≤ b·N(-(d - s))`. -/
theorem bs_put_nonneg (a b s d : ℝ) (ha : 0 < a) (hb : 0 < b) (hs : 0 ≤ s)
    (hd : d * s = Real.log (a / b) + s ^ 2 / 2) :
    0 ≤ b * normalCDF realLibm (-(d - s)) - a * normalCDF realLibm (-d) := by
  have key := normalCDF_shift_le (-(d - s)) s hs
  have he : Real.exp (-(-(d - s)) * s + s ^ 2 / 2) = a / b := by
    rw [show -(-(d - s)) * s + s ^ 2 / 2 = Real.log (a / b) by linarith [hd],
      Real.exp_log (div_pos ha hb)]
  rw [he, show -(d - s) - s = -d by ring] at key
  have := mul_le_mul_of_nonneg_left key hb.le
  rw [← mul_assoc, mul_div_cancel₀ a hb.ne.symm] at this
  linarith

/-- The identity `d1 · σ√T = log (S e^{-qT} / (K e^{-rT})) + (σ√T)²/2` on the standard path. -/
theorem vanillaD1_mul (S : ℝ) (params : OptionParams ℝ) (hS : 0 < S) (hK : 0 < params.strike)
    (hT : 0 < params.timeToMaturity) (hv : 0 < params.volatility) :
    vanillaD1 realLibm S params * (params.volatility * Real.sqrt params.timeToMaturity) =
      Real.log (S * Real.exp (-params.dividendYield * params.timeToMaturity) /
          (params.strike * Real.exp (-params.riskFreeRate * params.timeToMaturity))) +
        (params.volatility * Real.sqrt params.timeToMaturity) ^ 2 / 2 := by
  have hsT : 0 < Real.sqrt params.timeToMaturity := Real.sqrt_pos.mpr hT
  have hne : params.volatility * Real.sqrt params.timeToMaturity ≠ 0 := (mul_pos hv hsT).ne.symm
  have hsq : Real.sqrt params.timeToMaturity ^ 2 = params.timeToMaturity := Real.sq_sqrt hT.le
  unfold vanillaD1
  simp only [realLibm]
  rw [div_mul_cancel₀ _ hne,
    Real.log_div (mul_pos hS (Real.exp_pos _)).ne.symm (mul_pos hK (Real.exp_pos _)).ne.symm,
    Real.log_mul hS.ne.symm (Real.exp_pos _).ne.symm,
    Real.log_mul hK.ne.symm (Real.exp_pos _).ne.symm, Real.log_exp, Real.log_exp,
    Real.log_div hS.ne.symm hK.ne.symm, mul_pow, hsq]
  norm_num
  ring

/-- The Black-Scholes price of `calculateVanilla` is non-negative on the standard path for a
positive spot and a positive strike. -/
theorem calculateVanilla_price_nonneg (S : ℝ) (params : OptionParams ℝ) (hS : 0 < S)
    (hK : 0 < params.strike) (hT : 0 < params.timeToMaturity) (hv : 0 < params.volatility) :
    0 ≤ (calculateVanilla realLibm S params).price := by
  have hstd : ¬ (params.timeToMaturity ≤ 0 ∨ params.volatility ≤ 0) := by
    rintro (h | h) <;> linarith
  have hs : 0 ≤ params.volatility * Real.sqrt params.timeToMaturity :=
    mul_nonneg hv.le (Real.sqrt_nonneg _)
  have hd := vanillaD1_mul S params hS hK hT hv
  have ha : 0 < S * Real.exp (-params.dividendYield * params.timeToMaturity) :=
    mul_pos hS (Real.exp_pos _)
  have hb : 0 < params.strike * Real.exp (-params.riskFreeRate * params.timeToMaturity) :=
    mul_pos hK (Real.exp_pos _)
  by_cases hc : isCall params
  · rw [calculateVanilla_price_call _ _ _ hstd hc]
    exact bs_call_nonneg _ _ _ _ ha hb hs hd
  · rw [calculateVanilla_price_put _ _ _ hstd hc]
    exact bs_put_nonneg _ _ _ _ ha hb hs hd

/-- C3: in/out parity.  For `S > 0`, `K > 0`, `H > 0` and every `T`, `σ`, `r`, `q` and option
type, the `UpOut` and `UpIn` prices of `barrierPrice` add up to the price of `calculateVanilla`
with barrier type `None`, and so do the `DownOut` and `DownIn` prices, on the degenerate path
(`T ≤ 0` or `σ ≤ 0`) and on the standard path alike, with the exact math library over the
reals. -/
theorem in_out_parity (S : ℝ) (params : OptionParams ℝ) (hS : 0 < S) (hK : 0 < params.strike)
    (hH : 0 < params.barrierLevel) :
    barrierPrice realLibm S { params with barrierType := "UpOut" } +
          barrierPrice realLibm S { params with barrierType := "UpIn" } =
        (calculateVanilla realLibm S { params with barrierType := "None" }).price ∧
      barrierPrice realLibm S { params with barrierType := "DownOut" } +
          barrierPrice realLibm S { params with barrierType := "DownIn" } =
        (calculateVanilla realLibm S { params with barrierType := "None" }).price := by
  by_cases hdeg : params.timeToMaturity ≤ 0 ∨ params.volatility ≤ 0
  · have hbar : params.timeToMaturity ≤ 0 ∨ params.volatility ≤ 0 ∨ params.barrierLevel ≤ 0 := by
      rcases hdeg with h | h
      · exact Or.inl h
      · exact Or.inr (Or.inl h)
    have hvan : (calculateVanilla realLibm S { params with barrierType := "None" }).price =
        intrinsic S params := by
      rw [calculateVanilla_degenerate _ _ { params with barrierType := "None" } hdeg]
      unfold intrinsic
      by_cases hc : isCall params
      · rw [if_pos (show isCall { params with barrierType := "None" } from hc), if_pos hc]
      · rw [if_neg (show ¬ isCall { params with barrierType := "None" } from hc), if_neg hc]
    rw [barrierPrice_degenerate_upOut _ _ { params with barrierType := "UpOut" } hbar rfl,
      barrierPrice_degenerate_upIn _ _ { params with barrierType := "UpIn" } hbar rfl,
      barrierPrice_degenerate_downOut _ _ { params with barrierType := "DownOut" } hbar rfl,
      barrierPrice_degenerate_downIn _ _ { params with barrierType := "DownIn" } hbar rfl, hvan]
    have i1 : intrinsic S { params with barrierType := "UpOut" } = intrinsic S params := rfl
    have i2 : intrinsic S { params with barrierType := "UpIn" } = intrinsic S params := rfl
    have i3 : intrinsic S { params with barrierType := "DownOut" } = intrinsic S params := rfl
    have i4 : intrinsic S { params with barrierType := "DownIn" } = intrinsic S params := rfl
    rw [i1, i2, i3, i4]
    simp only
    constructor
    · by_cases hs : S ≥ params.barrierLevel
      · rw [if_pos hs, if_neg (not_lt.mpr hs), zero_add]
      · rw [if_neg hs, if_pos (not_le.mp hs), add_zero]
    · by_cases hs : S ≤ params.barrierLevel
      · rw [if_pos hs, if_neg (not_lt.mpr hs), zero_add]
      · rw [if_neg hs, if_pos (not_le.mp hs), add_zero]
  · have hT : 0 < params.timeToMaturity := not_le.mp fun h => hdeg (Or.inl h)
    have hv : 0 < params.volatility := not_le.mp fun h => hdeg (Or.inr h)
    have hbar : ¬ (params.timeToMaturity ≤ 0 ∨ params.volatility ≤ 0 ∨
        params.barrierLevel ≤ 0) := by
      rintro (h | h | h) <;> linarith
    have hpos := calculateVanilla_price_nonneg S { params with barrierType := "None" } hS hK hT hv
    rw [barrierPrice_standard_out _ _ { params with barrierType := "UpOut" } hbar (by simp),
      barrierPrice_standard_in _ _ { params with barrierType := "UpIn" } hbar (Or.inl rfl),
      barrierPrice_standard_out _ _ { params with barrierType := "DownOut" } hbar (by simp),
      barrierPrice_standard_in _ _ { params with barrierType := "DownIn" } hbar (Or.inr rfl),
      knockOutPrice_congr _ _ params "UpOut" "UpIn" (by simp),
      knockOutPrice_congr _ _ params "DownOut" "DownIn" (by simp)]
    simp only
    rw [max_eq_left hpos]
    constructor <;> ring

/-- The witness of C3: the reference call with spot 100 and barrier level 120. -/
theorem in_out_parity_witness :
    barrierPrice realLibm 100
          { referenceBarrier "Call" "Long" 1 "None" 120 with barrierType := "UpOut" } +
          barrierPrice realLibm 100
            { referenceBarrier "Call" "Long" 1 "None" 120 with barrierType := "UpIn" } =
        (calculateVanilla realLibm 100
          { referenceBarrier "Call" "Long" 1 "None" 120 with barrierType := "None" }).price ∧
      barrierPrice realLibm 100
          { referenceBarrier "Call" "Long" 1 "None" 120 with barrierType := "DownOut" } +
          barrierPrice realLibm 100
            { referenceBarrier "Call" "Long" 1 "None" 120 with barrierType := "DownIn" } =
        (calculateVanilla realLibm 100
          { referenceBarrier "Call" "Long" 1 "None" 120 with barrierType := "None" }).price :=
  in_out_parity 100 (referenceBarrier "Call" "Long" 1 "None" 120) (by norm_num)
    (by simp [referenceBarrier, referenceParams]) (by simp [referenceBarrier, referenceParams])

/-! ## C4 -/

theorem upOutCall_standard :
    ¬ ((upOutCall : OptionParams ℝ).timeToMaturity ≤ 0 ∨ (upOutCall : OptionParams ℝ).volatility ≤ 0 ∨
      (upOutCall : OptionParams ℝ).barrierLevel ≤ 0) := by
  simp only [upOutCall]
  norm_num

theorem upOutCall_mu : barrierMu (upOutCall : OptionParams ℝ) = -1 := by
  simp only [barrierMu, upOutCall]
  norm_num

theorem upOutCall_x2 : barrierX2 realLibm 500 upOutCall = 0 := by
  simp only [barrierX2, upOutCall_mu]
  simp only [upOutCall, realLibm]
  rw [div_self (by norm_num : (500 : ℝ) ≠ 0), Real.log_one]
  norm_num

theorem upOutCall_y2 : barrierY2 realLibm 500 upOutCall = 0 := by
  simp only [barrierY2, upOutCall_mu]
  simp only [upOutCall, realLibm]
  rw [div_self (by norm_num : (500 : ℝ) ≠ 0), Real.log_one]
  norm_num

theorem upOutCall_x1_nonneg : 0 ≤ barrierX1 realLibm 500 upOutCall := by
  simp only [barrierX1, upOutCall_mu]
  simp only [upOutCall, realLibm]
  rw [Real.sqrt_one]
  have : 0 ≤ Real.log (500 / 100) := Real.log_nonneg (by norm_num)
  norm_num
  positivity

theorem upOutCall_knockOut :
    knockOutPrice realLibm 500 upOutCall =
      max (barrierA realLibm 500 upOutCall - barrierB realLibm 500 upOutCall +
        barrierD realLibm 500 upOutCall) 0 := by
  have hc : isCall (upOutCall : OptionParams ℝ) := Or.inl rfl
  have hd : ¬ ((upOutCall : OptionParams ℝ).barrierType = "DownOut" ∨
      (upOutCall : OptionParams ℝ).barrierType = "DownIn") := by
    simp [upOutCall]
  have hk : ¬ ((upOutCall : OptionParams ℝ).barrierLevel ≤ (upOutCall : OptionParams ℝ).strike) := by
    simp only [upOutCall]
    norm_num
  unfold knockOutPrice
  simp only [if_pos hc, if_neg hd, if_neg hk]

theorem barrierA_call (m : Libm α) (S : α) (params : OptionParams α) (hc : isCall params) :
    barrierA m S params =
      S * m.exp (-params.dividendYield * params.timeToMaturity) *
          normalCDF m (barrierX1 m S params) -
        params.strike * m.exp (-params.riskFreeRate * params.timeToMaturity) *
          normalCDF m (barrierX1 m S params - params.volatility * m.sqrt params.timeToMaturity) := by
  simp only [barrierA, barrierPhi, if_pos hc, one_mul]

theorem barrierB_call (m : Libm α) (S : α) (params : OptionParams α) (hc : isCall params) :
    barrierB m S params =
      S * m.exp (-params.dividendYield * params.timeToMaturity) *
          normalCDF m (barrierX2 m S params) -
        params.strike * m.exp (-params.riskFreeRate * params.timeToMaturity) *
          normalCDF m (barrierX2 m S params - params.volatility * m.sqrt params.timeToMaturity) := by
  simp only [barrierB, barrierPhi, if_pos hc, one_mul]

theorem barrierD_call (m : Libm α) (S : α) (params : OptionParams α) (hc : isCall params) :
    barrierD m S params =
      S * m.exp (-params.dividendYield * params.timeToMaturity) * barrierHSpow m S params *
          normalCDF m (-barrierY2 m S params) -
        params.strike * m.exp (-params.riskFreeRate * params.timeToMaturity) *
            m.pow (params.barrierLevel / S) (2 * barrierMu params) *
          normalCDF m
            (-(barrierY2 m S params - params.volatility * m.sqrt params.timeToMaturity)) := by
  simp only [barrierD, barrierPhi, if_pos hc, one_mul, neg_one_mul, neg_mul]

theorem upOutCall_pow :
    barrierHSpow realLibm 500 upOutCall = 1 ∧
      realLibm.pow ((upOutCall : OptionParams ℝ).barrierLevel / 500)
        (2 * barrierMu (upOutCall : OptionParams ℝ)) = 1 := by
  simp only [barrierHSpow, upOutCall_mu]
  simp [upOutCall, realLibm]

theorem upOutCall_discount :
    485 ≤ 500 * realLibm.exp
        (-(upOutCall : OptionParams ℝ).dividendYield * (upOutCall : OptionParams ℝ).timeToMaturity) ∧
      0 < (upOutCall : OptionParams ℝ).strike * realLibm.exp
        (-(upOutCall : OptionParams ℝ).riskFreeRate * (upOutCall : OptionParams ℝ).timeToMaturity) ∧
      (upOutCall : OptionParams ℝ).strike * realLibm.exp
        (-(upOutCall : OptionParams ℝ).riskFreeRate * (upOutCall : OptionParams ℝ).timeToMaturity)
          ≤ 100 := by
  simp only [upOutCall, realLibm]
  have hq := Real.add_one_le_exp (-0.03 * 1 : ℝ)
  have hr : Real.exp (-0.01 * 1) ≤ (1 : ℝ) := by
    rw [← Real.exp_zero]
    exact Real.exp_le_exp.mpr (by norm_num)
  have hr0 : 0 < Real.exp (-0.01 * 1 : ℝ) := Real.exp_pos _
  refine ⟨by linarith, by positivity, by linarith⟩

/-- C4 (the code departs from the claim): the standard-path formula of `barrierPrice` does not
vanish at the barrier.  For the up-and-out call `upOutCall` (`T = 1`, `σ = 0.2`, `K = 100`,
`H = 500`, `r = 0.01`, `q = 0.03`) at spot `S = H = 500` the price is at least `42.5`, not
`0`. -/
theorem barrierPrice_upOut_at_barrier_pos :
    (upOutCall : OptionParams ℝ).barrierType = "UpOut" ∧
      (500 : ℝ) = (upOutCall : OptionParams ℝ).barrierLevel ∧
      42.5 ≤ barrierPrice realLibm 500 upOutCall ∧
      barrierPrice realLibm 500 upOutCall ≠ 0 := by
  have hbound : (42.5 : ℝ) ≤ barrierPrice realLibm 500 upOutCall := by
    have hc : isCall (upOutCall : OptionParams ℝ) := Or.inl rfl
    rw [barrierPrice_standard_out _ _ _ upOutCall_standard (by simp [upOutCall]),
      upOutCall_knockOut]
    refine le_trans ?_ (le_max_left _ _)
    rw [barrierA_call _ _ _ hc, barrierB_call _ _ _ hc, barrierD_call _ _ _ hc,
      upOutCall_pow.1, upOutCall_pow.2, upOutCall_x2, upOutCall_y2, neg_zero, normalCDF_zero]
    obtain ⟨ha, hb0, hb⟩ := upOutCall_discount
    have hN1 : 1 / 2 ≤ normalCDF realLibm (barrierX1 realLibm 500 upOutCall) := by
      rw [← normalCDF_zero]
      exact normalCDF_mono upOutCall_x1_nonneg
    have hN2 := normalCDF_le_one (barrierX1 realLibm 500 upOutCall -
      (upOutCall : OptionParams ℝ).volatility * realLibm.sqrt (upOutCall : OptionParams ℝ).timeToMaturity)
    have hN3 := normalCDF_nonneg (0 -
      (upOutCall : OptionParams ℝ).volatility * realLibm.sqrt (upOutCall : OptionParams ℝ).timeToMaturity)
    have hN4 := normalCDF_le_one (-(0 -
      (upOutCall : OptionParams ℝ).volatility * realLibm.sqrt (upOutCall : OptionParams ℝ).timeToMaturity))
    generalize normalCDF realLibm (barrierX1 realLibm 500 upOutCall) = n1 at hN1 ⊢
    generalize normalCDF realLibm (barrierX1 realLibm 500 upOutCall -
      (upOutCall : OptionParams ℝ).volatility * realLibm.sqrt (upOutCall : OptionParams ℝ).timeToMaturity)
      = n2 at hN2 ⊢
    generalize normalCDF realLibm (0 -
      (upOutCall : OptionParams ℝ).volatility * realLibm.sqrt (upOutCall : OptionParams ℝ).timeToMaturity)
      = n3 at hN3 ⊢
    generalize normalCDF realLibm (-(0 -
      (upOutCall : OptionParams ℝ).volatility * realLibm.sqrt (upOutCall : OptionParams ℝ).timeToMaturity))
      = n4 at hN4 ⊢
    generalize 500 * realLibm.exp
      (-(upOutCall : OptionParams ℝ).dividendYield * (upOutCall : OptionParams ℝ).timeToMaturity)
      = a at ha ⊢
    generalize (upOutCall : OptionParams ℝ).strike * realLibm.exp
      (-(upOutCall : OptionParams ℝ).riskFreeRate * (upOutCall : OptionParams ℝ).timeToMaturity)
      = b at hb0 hb ⊢
    norm_num
    nlinarith [mul_le_mul_of_nonneg_left hN1 (by linarith : (0 : ℝ) ≤ a),
      mul_le_mul_of_nonneg_left hN2 hb0.le, mul_nonneg hb0.le hN3,
      mul_le_mul_of_nonneg_left hN4 hb0.le]
  exact ⟨rfl, rfl, hbound, by linarith⟩

/-! ## C5 -/

theorem normalCDF_half_le {x : ℝ} (hx : 0 ≤ x) : 1 / 2 ≤ normalCDF realLibm x := by
  rw [← normalCDF_zero]
  exact normalCDF_mono hx

theorem reference_price_lower_bound :
    50 ≤ (calculateVanilla realLibm 300 (referenceParams "Call" "Long" 1)).price := by
  rw [calculateVanilla_price_call _ _ _ (reference_standard _ _ _) (Or.inl rfl)]
  have hd1 : 0 ≤ vanillaD1 realLibm 300 (referenceParams "Call" "Long" 1) := by
    simp only [vanillaD1, referenceParams, realLibm]
    rw [Real.sqrt_one]
    have : 0 ≤ Real.log (300 / 100) := Real.log_nonneg (by norm_num)
    have h2 : (0 : ℝ) < 0.2 * 1 := by norm_num
    have h3 : (0 : ℝ) ≤ (0.05 - 0 + 0.5 * 0.2 * 0.2) * 1 := by norm_num
    positivity
  have hN1 := normalCDF_half_le hd1
  have hN2 := normalCDF_le_one (vanillaD2 realLibm 300 (referenceParams "Call" "Long" 1))
  have hN3 := normalCDF_nonneg (vanillaD2 realLibm 300 (referenceParams "Call" "Long" 1))
  have ha : realLibm.exp (-(referenceParams "Call" "Long" (1 : ℝ)).dividendYield *
      (referenceParams "Call" "Long" (1 : ℝ)).timeToMaturity) = 1 := by
    simp [referenceParams, realLibm]
  have hb0 : 0 < realLibm.exp (-(referenceParams "Call" "Long" (1 : ℝ)).riskFreeRate *
      (referenceParams "Call" "Long" (1 : ℝ)).timeToMaturity) := Real.exp_pos _
  have hb : realLibm.exp (-(referenceParams "Call" "Long" (1 : ℝ)).riskFreeRate *
      (referenceParams "Call" "Long" (1 : ℝ)).timeToMaturity) ≤ 1 := by
    simp only [referenceParams, realLibm]
    rw [← Real.exp_zero]
    exact Real.exp_le_exp.mpr (by norm_num)
  have hK : (referenceParams "Call" "Long" (1 : ℝ)).strike = 100 := rfl
  rw [ha, hK]
  generalize normalCDF realLibm (vanillaD1 realLibm 300 (referenceParams "Call" "Long" 1)) = n1
    at hN1 ⊢
  generalize normalCDF realLibm (vanillaD2 realLibm 300 (referenceParams "Call" "Long" 1)) = n2
    at hN2 hN3 ⊢
  generalize realLibm.exp (-(referenceParams "Call" "Long" (1 : ℝ)).riskFreeRate *
      (referenceParams "Call" "Long" (1 : ℝ)).timeToMaturity) = b at hb0 hb ⊢
  have hbn : b * n2 ≤ n2 := mul_le_of_le_one_left hN3 hb
  linarith

/-- C5 (the claim fails on the code): for the unrecognized token `"UpAndOut"` the dispatcher
does not fall back to the no-barrier branch.  At spot 300, for the reference call with barrier
level 50, `calculate` returns price `0`, while with barrier type `"None"` it returns a price
of at least `50`. -/
theorem calculate_unrecognized_not_fallback :
    (calculate realLibm 300 (referenceBarrier "Call" "Long" 1 "UpAndOut" 50)).price = 0 ∧
      50 ≤ (calculate realLibm 300
        { referenceBarrier "Call" "Long" 1 "UpAndOut" 50 with barrierType := "None" }).price ∧
      calculate realLibm 300 (referenceBarrier "Call" "Long" 1 "UpAndOut" 50) ≠
        calculate realLibm 300
          { referenceBarrier "Call" "Long" 1 "UpAndOut" 50 with barrierType := "None" } := by
  have h1 : (calculate realLibm 300 (referenceBarrier "Call" "Long" 1 "UpAndOut" 50)).price = 0 := by
    have hb : hasBarrier (referenceBarrier "Call" "Long" (1 : ℝ) "UpAndOut" 50) := by
      simp [hasBarrier, referenceBarrier]
    have hstd : ¬ ((referenceBarrier "Call" "Long" (1 : ℝ) "UpAndOut" 50).timeToMaturity ≤ 0 ∨
        (referenceBarrier "Call" "Long" (1 : ℝ) "UpAndOut" 50).volatility ≤ 0 ∨
        (referenceBarrier "Call" "Long" (1 : ℝ) "UpAndOut" 50).barrierLevel ≤ 0) := by
      simp only [referenceBarrier, referenceParams]
      norm_num
    have hc : isCall (referenceBarrier "Call" "Long" (1 : ℝ) "UpAndOut" 50) := Or.inl rfl
    have hd : ¬ ((referenceBarrier "Call" "Long" (1 : ℝ) "UpAndOut" 50).barrierType = "DownOut" ∨
        (referenceBarrier "Call" "Long" (1 : ℝ) "UpAndOut" 50).barrierType = "DownIn") := by
      simp [referenceBarrier]
    have hk : (referenceBarrier "Call" "Long" (1 : ℝ) "UpAndOut" 50).barrierLevel ≤
        (referenceBarrier "Call" "Long" (1 : ℝ) "UpAndOut" 50).strike := by
      simp only [referenceBarrier, referenceParams]
      norm_num
    rw [calculate_barrier_price _ _ _ hb,
      barrierPrice_standard_out _ _ _ hstd (by simp [referenceBarrier])]
    unfold knockOutPrice
    simp only [if_pos hc, if_neg hd, if_pos hk, max_self, zero_mul]
  have h2 : 50 ≤ (calculate realLibm 300
      { referenceBarrier "Call" "Long" 1 "UpAndOut" 50 with barrierType := "None" }).price := by
    have hb : ¬ hasBarrier
        { referenceBarrier "Call" "Long" (1 : ℝ) "UpAndOut" 50 with barrierType := "None" } := by
      simp [hasBarrier]
    have hm : positionMultiplier
        { referenceBarrier "Call" "Long" (1 : ℝ) "UpAndOut" 50 with barrierType := "None" } *
        ({ referenceBarrier "Call" "Long" (1 : ℝ) "UpAndOut" 50 with
          barrierType := "None" } : OptionParams ℝ).quantity = 1 := by
      simp [positionMultiplier, referenceBarrier, referenceParams]
    have hv : calculateVanilla realLibm 300
        { referenceBarrier "Call" "Long" 1 "UpAndOut" 50 with barrierType := "None" } =
        calculateVanilla realLibm 300 (referenceParams "Call" "Long" 1) := rfl
    rw [calculate_noBarrier _ _ _ hb]
    simp only
    rw [hm, mul_one, hv]
    exact reference_price_lower_bound
  refine ⟨h1, h2, fun h => ?_⟩
  rw [h] at h1
  rw [h1] at h2
  norm_num at h2

/-- C5 (amended): for a record whose `barrierType` is an unrecognized token (non-empty and
none of `"None"`, `"UpOut"`, `"DownOut"`, `"UpIn"`, `"DownIn"`), `calculate` takes the barrier
branch: its price is `barrierPrice(S, params) × multiplier × quantity`, where `barrierPrice`
resolves the token by the else branch of each comparison, returning the intrinsic value on the
degenerate path and the same value as for `"UpOut"` on the standard path. -/
theorem calculate_unrecognized_barrier (m : Libm α) (S : α) (params : OptionParams α)
    (h0 : params.barrierType ≠ "") (h1 : params.barrierType ≠ "None")
    (h2 : params.barrierType ≠ "UpOut") (h3 : params.barrierType ≠ "DownOut")
    (h4 : params.barrierType ≠ "UpIn") (h5 : params.barrierType ≠ "DownIn") :
    (calculate m S params).price =
        barrierPrice m S params * (positionMultiplier params * params.quantity) ∧
      ((params.timeToMaturity ≤ 0 ∨ params.volatility ≤ 0 ∨ params.barrierLevel ≤ 0) →
        barrierPrice m S params = intrinsic S params) ∧
      (¬ (params.timeToMaturity ≤ 0 ∨ params.volatility ≤ 0 ∨ params.barrierLevel ≤ 0) →
        barrierPrice m S params = barrierPrice m S { params with barrierType := "UpOut" }) := by
  refine ⟨calculate_barrier_price m S params ⟨h0, h1⟩, fun hdeg => ?_, fun hstd => ?_⟩
  · unfold barrierPrice
    simp only [if_pos hdeg, h2, h3, h4, h5, false_and, false_or, if_false, if_true]
  · have hin : ¬ (params.barrierType = "UpIn" ∨ params.barrierType = "DownIn") := by
      rintro (h | h)
      · exact h4 h
      · exact h5 h
    rw [barrierPrice_standard_out m S params hstd hin,
      barrierPrice_standard_out m S { params with barrierType := "UpOut" } hstd (by simp)]
    have hself : knockOutPrice m S params =
        knockOutPrice m S { params with barrierType := params.barrierType } := rfl
    rw [hself]
    exact knockOutPrice_congr m S params params.barrierType "UpOut" (by simp [h3, h5])

/-- The witness of C5 (amended): the token `"UpAndOut"`. -/
theorem calculate_unrecognized_barrier_witness :
    (calculate realLibm 300 (referenceBarrier "Call" "Long" 1 "UpAndOut" 50)).price =
        barrierPrice realLibm 300 (referenceBarrier "Call" "Long" 1 "UpAndOut" 50) *
          (positionMultiplier (referenceBarrier "Call" "Long" (1 : ℝ) "UpAndOut" 50) *
            (referenceBarrier "Call" "Long" (1 : ℝ) "UpAndOut" 50).quantity) ∧
      (((referenceBarrier "Call" "Long" (1 : ℝ) "UpAndOut" 50).timeToMaturity ≤ 0 ∨
          (referenceBarrier "Call" "Long" (1 : ℝ) "UpAndOut" 50).volatility ≤ 0 ∨
          (referenceBarrier "Call" "Long" (1 : ℝ) "UpAndOut" 50).barrierLevel ≤ 0) →
        barrierPrice realLibm 300 (referenceBarrier "Call" "Long" 1 "UpAndOut" 50) =
          intrinsic 300 (referenceBarrier "Call" "Long" 1 "UpAndOut" 50)) ∧
      (¬ ((referenceBarrier "Call" "Long" (1 : ℝ) "UpAndOut" 50).timeToMaturity ≤ 0 ∨
          (referenceBarrier "Call" "Long" (1 : ℝ) "UpAndOut" 50).volatility ≤ 0 ∨
          (referenceBarrier "Call" "Long" (1 : ℝ) "UpAndOut" 50).barrierLevel ≤ 0) →
        barrierPrice realLibm 300 (referenceBarrier "Call" "Long" 1 "UpAndOut" 50) =
          barrierPrice realLibm 300
            { referenceBarrier "Call" "Long" 1 "UpAndOut" 50 with barrierType := "UpOut" }) :=
  calculate_unrecognized_barrier realLibm 300 (referenceBarrier "Call" "Long" 1 "UpAndOut" 50)
    (by decide) (by decide) (by decide) (by decide) (by decide) (by decide)

/-! ## C6 -/

/-- C6: the degenerate vanilla case.  For `T ≤ 0` or `σ ≤ 0`, no barrier, position `Long` and
quantity 1, `calculate` returns `price = payoff = max(S − K, 0)` and `delta = 1` if `S > K`
else `0` for a call, `price = payoff = max(K − S, 0)` and `delta = −1` if `S < K` else `0` for
a put, and `timeValue` and the ten remaining fields equal to `0`. -/
theorem calculate_degenerate (m : Libm α) (S : α) (params : OptionParams α)
    (hdeg : params.timeToMaturity ≤ 0 ∨ params.volatility ≤ 0)
    (hb : params.barrierType = "" ∨ params.barrierType = "None")
    (hpos : params.position = "Long") (hq : params.quantity = 1) :
    calculate m S params =
      if isCall params then
        { price := max (S - params.strike) 0
          delta := if S > params.strike then 1 else 0
          payoff := max (S - params.strike) 0
          timeValue := 0
          gamma := 0, theta := 0, vega := 0, rho := 0, speed := 0, zomma := 0, color := 0,
          vanna := 0, volga := 0, ultima := 0 }
      else
        { price := max (params.strike - S) 0
          delta := if S < params.strike then -1 else 0
          payoff := max (params.strike - S) 0
          timeValue := 0
          gamma := 0, theta := 0, vega := 0, rho := 0, speed := 0, zomma := 0, color := 0,
          vanna := 0, volga := 0, ultima := 0 } := by
  rw [calculate_noBarrier m S params (not_hasBarrier_of_none params hb),
    calculateVanilla_degenerate m S params hdeg, positionMultiplier_long params hpos, hq]
  by_cases hc : isCall params
  · simp only [if_pos hc, Greeks.zero, mul_one, zero_mul]
  · simp only [if_neg hc, Greeks.zero, mul_one, zero_mul]

/-- The witness of C6: the reference call at expiry (`T = 0`) with spot 110. -/
theorem calculate_degenerate_witness :
    calculate realLibm 110 { referenceParams "Call" "Long" 1 with timeToMaturity := 0 } =
      if isCall ({ referenceParams "Call" "Long" 1 with timeToMaturity := 0 } : OptionParams ℝ) then
        { price := max (110 - 100) 0
          delta := if (110 : ℝ) > 100 then 1 else 0
          payoff := max (110 - 100) 0
          timeValue := 0
          gamma := 0, theta := 0, vega := 0, rho := 0, speed := 0, zomma := 0, color := 0,
          vanna := 0, volga := 0, ultima := 0 }
      else
        { price := max (100 - 110) 0
          delta := if (110 : ℝ) < 100 then -1 else 0
          payoff := max (100 - 110) 0
          timeValue := 0
          gamma := 0, theta := 0, vega := 0, rho := 0, speed := 0, zomma := 0, color := 0,
          vanna := 0, volga := 0, ultima := 0 } :=
  calculate_degenerate realLibm 110 { referenceParams "Call" "Long" 1 with timeToMaturity := 0 }
    (Or.inl (le_refl (0 : ℝ))) (Or.inr rfl) rfl rfl

/-! ## C7 -/

/-- C7: the degenerate path of `barrierPrice` (`T ≤ 0` or `σ ≤ 0` or `H ≤ 0`).  The result is
`0` or the intrinsic value (`max(S − K, 0)` for a call, `max(K − S, 0)` for a put), and the
choice depends only on the spot and the barrier: `UpOut` takes the `0` branch exactly when
`S ≥ H`, `DownOut` exactly when `S ≤ H`, `UpIn` exactly when `S < H`, `DownIn` exactly when
`S > H`, and the intrinsic value otherwise; in particular an `UpOut` option with `S ≥ H` is
priced `0`. -/
theorem barrierPrice_degenerate (m : Libm α) (S : α) (params : OptionParams α)
    (hdeg : params.timeToMaturity ≤ 0 ∨ params.volatility ≤ 0 ∨ params.barrierLevel ≤ 0) :
    (params.barrierType = "UpOut" →
        barrierPrice m S params =
          if S ≥ params.barrierLevel then 0
          else if isCall params then max (S - params.strike) 0
          else max (params.strike - S) 0) ∧
      (params.barrierType = "DownOut" →
        barrierPrice m S params =
          if S ≤ params.barrierLevel then 0
          else if isCall params then max (S - params.strike) 0
          else max (params.strike - S) 0) ∧
      (params.barrierType = "UpIn" →
        barrierPrice m S params =
          if S < params.barrierLevel then 0
          else if isCall params then max (S - params.strike) 0
          else max (params.strike - S) 0) ∧
      (params.barrierType = "DownIn" →
        barrierPrice m S params =
          if S > params.barrierLevel then 0
          else if isCall params then max (S - params.strike) 0
          else max (params.strike - S) 0) ∧
      (params.barrierType = "UpOut" → S ≥ params.barrierLevel → barrierPrice m S params = 0) := by
  refine ⟨fun hb => ?_, fun hb => ?_, fun hb => ?_, fun hb => ?_, fun hb hs => ?_⟩
  · rw [barrierPrice_degenerate_upOut m S params hdeg hb]; rfl
  · rw [barrierPrice_degenerate_downOut m S params hdeg hb]; rfl
  · rw [barrierPrice_degenerate_upIn m S params hdeg hb]; rfl
  · rw [barrierPrice_degenerate_downIn m S params hdeg hb]; rfl
  · rw [barrierPrice_degenerate_upOut m S params hdeg hb, if_pos hs]

/-- The witness of C7: the reference up-and-out call with barrier 120 at expiry (`T = 0`),
spot 130. -/
theorem barrierPrice_degenerate_witness :
    barrierPrice realLibm 130
        { referenceBarrier "Call" "Long" 1 "UpOut" 120 with timeToMaturity := 0 } = 0 :=
  (barrierPrice_degenerate realLibm 130
      { referenceBarrier "Call" "Long" 1 "UpOut" 120 with timeToMaturity := 0 }
      (Or.inl (le_refl (0 : ℝ)))).2.2.2.2 rfl
    (by simp only [referenceBarrier]; norm_num)

/-! ## C8 -/

/-- C8: the standard path of `barrierPrice` (`T > 0`, `σ > 0`, `H > 0`).  For `UpOut` and
`DownOut` the result is `max(E, 0)`, where `E` is the entry of the case table `knockOutTable`
selected by the option type, the barrier direction and `H ≤ K` versus `H > K`, applied to the
terms `A`, `B`, `C`, `D` of the source; so an up-and-out call with `H ≤ K` and a down-and-out
put with `H > K` are priced `0`. -/
theorem barrierPrice_standard_table (m : Libm α) (S : α) (params : OptionParams α)
    (hstd : ¬ (params.timeToMaturity ≤ 0 ∨ params.volatility ≤ 0 ∨ params.barrierLevel ≤ 0)) :
    (params.barrierType = "UpOut" →
        barrierPrice m S params =
          max (knockOutTable (decide (isCall params)) false
            (decide (params.barrierLevel ≤ params.strike))
            (barrierA m S params) (barrierB m S params) (barrierC m S params)
            (barrierD m S params)) 0) ∧
      (params.barrierType = "DownOut" →
        barrierPrice m S params =
          max (knockOutTable (decide (isCall params)) true
            (decide (params.barrierLevel ≤ params.strike))
            (barrierA m S params) (barrierB m S params) (barrierC m S params)
            (barrierD m S params)) 0) ∧
      (params.barrierType = "UpOut" → isCall params → params.barrierLevel ≤ params.strike →
        barrierPrice m S params = 0) ∧
      (params.barrierType = "DownOut" → ¬ isCall params → params.barrierLevel > params.strike →
        barrierPrice m S params = 0) := by
  have hup : params.barrierType = "UpOut" →
      barrierPrice m S params =
        max (knockOutTable (decide (isCall params)) false
          (decide (params.barrierLevel ≤ params.strike))
          (barrierA m S params) (barrierB m S params) (barrierC m S params)
          (barrierD m S params)) 0 := by
    intro hb
    rw [barrierPrice_standard_out m S params hstd (by simp [hb])]
    unfold knockOutPrice
    by_cases hc : isCall params <;> by_cases hk : params.barrierLevel ≤ params.strike <;>
      simp [hb, hc, hk, knockOutTable]
  have hdown : params.barrierType = "DownOut" →
      barrierPrice m S params =
        max (knockOutTable (decide (isCall params)) true
          (decide (params.barrierLevel ≤ params.strike))
          (barrierA m S params) (barrierB m S params) (barrierC m S params)
          (barrierD m S params)) 0 := by
    intro hb
    rw [barrierPrice_standard_out m S params hstd (by simp [hb])]
    unfold knockOutPrice
    by_cases hc : isCall params <;> by_cases hk : params.barrierLevel ≤ params.strike <;>
      simp [hb, hc, hk, knockOutTable]
  refine ⟨hup, hdown, fun hb hc hk => ?_, fun hb hc hk => ?_⟩
  · rw [hup hb]
    simp [hc, hk, knockOutTable]
  · rw [hdown hb]
    simp [hc, not_le.mpr hk, knockOutTable]

/-- The witness of C8: the up-and-out call `upOutCall` (`H = 500 > K = 100`) at spot 400. -/
theorem barrierPrice_standard_table_witness :
    barrierPrice realLibm 400 upOutCall =
      max (knockOutTable (decide (isCall (upOutCall : OptionParams ℝ))) false
        (decide ((upOutCall : OptionParams ℝ).barrierLevel ≤ (upOutCall : OptionParams ℝ).strike))
        (barrierA realLibm 400 upOutCall) (barrierB realLibm 400 upOutCall)
        (barrierC realLibm 400 upOutCall) (barrierD realLibm 400 upOutCall)) 0 :=
  (barrierPrice_standard_table realLibm 400 upOutCall upOutCall_standard).1 rfl

/-! ## C9 -/

/-- C9: for barrier type `UpOut` or `DownOut`, on the degenerate and on the standard path,
`barrierPrice` is `≥ 0`; for `UpIn` (`DownIn`) on the standard path it equals
`max(vanilla price, 0)` minus the clamped knock-out price, which is the `UpOut` (`DownOut`)
price of the same record, and hence it never exceeds `max(vanilla price, 0)`. -/
theorem barrierPrice_out_nonneg_in_parity (m : Libm α) (S : α) (params : OptionParams α) :
    ((params.barrierType = "UpOut" ∨ params.barrierType = "DownOut") →
        0 ≤ barrierPrice m S params) ∧
      (¬ (params.timeToMaturity ≤ 0 ∨ params.volatility ≤ 0 ∨ params.barrierLevel ≤ 0) →
        params.barrierType = "UpIn" →
          barrierPrice m S params =
              max (calculateVanilla m S { params with barrierType := "None" }).price 0 -
                barrierPrice m S { params with barrierType := "UpOut" } ∧
            barrierPrice m S { params with barrierType := "UpOut" } = knockOutPrice m S params ∧
            barrierPrice m S params ≤
              max (calculateVanilla m S { params with barrierType := "None" }).price 0) ∧
      (¬ (params.timeToMaturity ≤ 0 ∨ params.volatility ≤ 0 ∨ params.barrierLevel ≤ 0) →
        params.barrierType = "DownIn" →
          barrierPrice m S params =
              max (calculateVanilla m S { params with barrierType := "None" }).price 0 -
                barrierPrice m S { params with barrierType := "DownOut" } ∧
            barrierPrice m S { params with barrierType := "DownOut" } = knockOutPrice m S params ∧
            barrierPrice m S params ≤
              max (calculateVanilla m S { params with barrierType := "None" }).price 0) := by
  have hself : knockOutPrice m S params =
      knockOutPrice m S { params with barrierType := params.barrierType } := rfl
  refine ⟨fun hb => ?_, fun hstd hb => ?_, fun hstd hb => ?_⟩
  · by_cases hdeg : params.timeToMaturity ≤ 0 ∨ params.volatility ≤ 0 ∨ params.barrierLevel ≤ 0
    · rcases hb with hb | hb
      · rw [barrierPrice_degenerate_upOut m S params hdeg hb]
        split
        · exact le_refl 0
        · exact intrinsic_nonneg S params
      · rw [barrierPrice_degenerate_downOut m S params hdeg hb]
        split
        · exact le_refl 0
        · exact intrinsic_nonneg S params
    · have hin : ¬ (params.barrierType = "UpIn" ∨ params.barrierType = "DownIn") := by
        rcases hb with hb | hb <;> simp [hb]
      rw [barrierPrice_standard_out m S params hdeg hin]
      exact knockOutPrice_nonneg m S params
  · have hout : barrierPrice m S { params with barrierType := "UpOut" } =
        knockOutPrice m S params := by
      rw [barrierPrice_standard_out m S { params with barrierType := "UpOut" } hstd (by simp),
        hself, hb]
      exact knockOutPrice_congr m S params "UpOut" "UpIn" (by simp)
    rw [hout, barrierPrice_standard_in m S params hstd (Or.inl hb)]
    exact ⟨rfl, rfl, sub_le_self _ (knockOutPrice_nonneg m S params)⟩
  · have hout : barrierPrice m S { params with barrierType := "DownOut" } =
        knockOutPrice m S params := by
      rw [barrierPrice_standard_out m S { params with barrierType := "DownOut" } hstd (by simp),
        hself, hb]
      exact knockOutPrice_congr m S params "DownOut" "DownIn" (by simp)
    rw [hout, barrierPrice_standard_in m S params hstd (Or.inr hb)]
    exact ⟨rfl, rfl, sub_le_self _ (knockOutPrice_nonneg m S params)⟩

/-- The witness of C9: the up-and-out call `upOutCall` at spot 400 has a non-negative price. -/
theorem barrierPrice_out_nonneg_in_parity_witness :
    0 ≤ barrierPrice realLibm 400 upOutCall :=
  (barrierPrice_out_nonneg_in_parity realLibm 400 upOutCall).1 (Or.inl rfl)

/-! ## C10 -/

/-- C10: position sign.  For two records that differ only in the position token, one with a
short token (`"Short"`, `"short"` or `"-1"`) and one with a token that is not a short token
(such as `"Long"`), on the vanilla and on the barrier path alike, the price `calculate` returns
for the short record is the negative of the price it returns for the long record. -/
theorem calculate_position_sign (m : Libm α) (S : α) (params : OptionParams α)
    (short long : String) (hs : short = "Short" ∨ short = "short" ∨ short = "-1")
    (hl : ¬ (long = "Short" ∨ long = "short" ∨ long = "-1")) :
    (calculate m S { params with position := short }).price =
      -(calculate m S { params with position := long }).price := by
  have ms : positionMultiplier { params with position := short } = (-1 : α) := by
    unfold positionMultiplier
    rw [if_pos hs]
  have ml : positionMultiplier { params with position := long } = (1 : α) := by
    unfold positionMultiplier
    rw [if_neg hl]
  by_cases hb : hasBarrier params
  · have hbs : hasBarrier { params with position := short } := hb
    have hbl : hasBarrier { params with position := long } := hb
    have e : barrierPrice m S { params with position := short } =
        barrierPrice m S { params with position := long } := rfl
    rw [calculate_barrier_price m S _ hbs, calculate_barrier_price m S _ hbl, ms, ml, e]
    ring
  · have hbs : ¬ hasBarrier { params with position := short } := hb
    have hbl : ¬ hasBarrier { params with position := long } := hb
    have e : calculateVanilla m S { params with position := short } =
        calculateVanilla m S { params with position := long } := rfl
    rw [calculate_noBarrier m S _ hbs, calculate_noBarrier m S _ hbl, ms, ml, e]
    simp only
    ring

/-- The witness of C10: the up-and-out call `upOutCall` held `"Short"` and held `"Long"`. -/
theorem calculate_position_sign_witness :
    (calculate realLibm 400 { (upOutCall : OptionParams ℝ) with position := "Short" }).price =
      -(calculate realLibm 400 { (upOutCall : OptionParams ℝ) with position := "Long" }).price :=
  calculate_position_sign realLibm 400 upOutCall "Short" "Long" (Or.inl rfl) (by decide)

/-! ## C11 -/

/-- C11: scaling linearity.  For two records that differ only in the quantity, one with
quantity `2Q` and one with quantity `Q`, on the vanilla and on the barrier path alike, the
price `calculate` returns for quantity `2Q` is twice the price it returns for quantity `Q`. -/
theorem calculate_quantity_linear (m : Libm α) (S : α) (params : OptionParams α) (Q : α) :
    (calculate m S { params with quantity := 2 * Q }).price =
      2 * (calculate m S { params with quantity := Q }).price := by
  have mq : positionMultiplier { params with quantity := 2 * Q } =
      positionMultiplier { params with quantity := Q } := rfl
  by_cases hb : hasBarrier params
  · have hb2 : hasBarrier { params with quantity := 2 * Q } := hb
    have hb1 : hasBarrier { params with quantity := Q } := hb
    have e : barrierPrice m S { params with quantity := 2 * Q } =
        barrierPrice m S { params with quantity := Q } := rfl
    rw [calculate_barrier_price m S _ hb2, calculate_barrier_price m S _ hb1, mq, e]
    ring
  · have hb2 : ¬ hasBarrier { params with quantity := 2 * Q } := hb
    have hb1 : ¬ hasBarrier { params with quantity := Q } := hb
    have e : calculateVanilla m S { params with quantity := 2 * Q } =
        calculateVanilla m S { params with quantity := Q } := rfl
    rw [calculate_noBarrier m S _ hb2, calculate_noBarrier m S _ hb1, mq, e]
    simp only
    ring

/-! ## C12 -/

theorem calculateVanilla_timeValue (m : Libm α) (S : α) (params : OptionParams α) :
    (calculateVanilla m S params).timeValue =
      (calculateVanilla m S params).price - (calculateVanilla m S params).payoff := by
  unfold calculateVanilla
  by_cases hdeg : params.timeToMaturity ≤ 0 ∨ params.volatility ≤ 0
  · by_cases hc : isCall params
    · simp only [if_pos hdeg, if_pos hc, sub_self]
    · simp only [if_pos hdeg, if_neg hc, sub_self]
  · by_cases hc : isCall params
    · simp only [if_neg hdeg, if_pos hc]
    · simp only [if_neg hdeg, if_neg hc]

theorem calculate_barrier_payoff_timeValue (m : Libm α) (S : α) (params : OptionParams α)
    (h : hasBarrier params) :
    (calculate m S params).timeValue =
      (calculate m S params).price - (calculate m S params).payoff := by
  unfold calculate
  simp only [if_neg (not_not.mpr h)]
  ring

/-- C12: for every spot and every record (any barrier type, position and quantity) the record
returned by `calculate` satisfies `timeValue = price − payoff` on its scaled fields, and the
record returned by `calculateVanilla` satisfies the same equation on its unscaled fields,
the degenerate path (where `timeValue` is set to `0`) included. -/
theorem timeValue_eq_price_sub_payoff (m : Libm α) (S : α) (params : OptionParams α) :
    (calculate m S params).timeValue =
        (calculate m S params).price - (calculate m S params).payoff ∧
      (calculateVanilla m S params).timeValue =
        (calculateVanilla m S params).price - (calculateVanilla m S params).payoff := by
  refine ⟨?_, calculateVanilla_timeValue m S params⟩
  by_cases hb : hasBarrier params
  · exact calculate_barrier_payoff_timeValue m S params hb
  · rw [calculate_noBarrier m S params hb]
    simp only
    rw [calculateVanilla_timeValue m S params]
    ring

/-! ## C13 -/

theorem calculate_barrier_theta (m : Libm α) (S : α) (params : OptionParams α)
    (h : hasBarrier params) :
    (calculate m S params).theta =
      (if params.timeToMaturity > 1 / 365 then
          (barrierPrice m S
              { params with timeToMaturity := params.timeToMaturity - 1 / 365 } -
            barrierPrice m S params) / (1 / 365)
        else 0) * (positionMultiplier params * params.quantity) := by
  unfold calculate
  simp only [if_neg (not_not.mpr h), Greeks.zero]

theorem calculate_barrier_color_zero (m : Libm α) (S : α) (params : OptionParams α)
    (h : hasBarrier params) (hT : ¬ params.timeToMaturity > 1 / 365) :
    (calculate m S params).color = 0 := by
  unfold calculate
  simp only [if_neg (not_not.mpr h), if_neg hT, Greeks.zero, zero_mul]

/-- C13: for a record with a barrier (barrier type non-empty and not `"None"`), if
`timeToMaturity ≤ 1/365` then `calculate` returns `theta = 0` and `color = 0`; if
`timeToMaturity > 1/365` then, for position `Long` and quantity 1, `theta` is the one-sided
difference `(barrierPrice(S, params with T − 1/365) − barrierPrice(S, params)) / (1/365)`. -/
theorem calculate_barrier_theta_color (m : Libm α) (S : α) (params : OptionParams α)
    (hb : params.barrierType ≠ "" ∧ params.barrierType ≠ "None") :
    (params.timeToMaturity ≤ 1 / 365 →
        (calculate m S params).theta = 0 ∧ (calculate m S params).color = 0) ∧
      (params.timeToMaturity > 1 / 365 → params.position = "Long" → params.quantity = 1 →
        (calculate m S params).theta =
          (barrierPrice m S { params with timeToMaturity := params.timeToMaturity - 1 / 365 } -
            barrierPrice m S params) / (1 / 365)) := by
  have hbar : hasBarrier params := hb
  refine ⟨fun hT => ⟨?_, calculate_barrier_color_zero m S params hbar (not_lt.mpr hT)⟩,
    fun hT hpos hq => ?_⟩
  · rw [calculate_barrier_theta m S params hbar, if_neg (not_lt.mpr hT), zero_mul]
  · rw [calculate_barrier_theta m S params hbar, if_pos hT, positionMultiplier_long params hpos,
      hq, mul_one, mul_one]

/-- The witness of C13: the up-and-out call `upOutCall` (one year to maturity) at spot 400. -/
theorem calculate_barrier_theta_color_witness :
    (calculate realLibm 400 upOutCall).theta =
      (barrierPrice realLibm 400
          { (upOutCall : OptionParams ℝ) with
            timeToMaturity := (upOutCall : OptionParams ℝ).timeToMaturity - 1 / 365 } -
        barrierPrice realLibm 400 upOutCall) / (1 / 365) :=
  (calculate_barrier_theta_color realLibm 400 upOutCall ⟨by decide, by decide⟩).2
    (by simp only [upOutCall]; norm_num) rfl rfl

/-! ## C15 -/

/-- The vanilla pricer reads the option type only through the test `isCall`. -/
theorem calculateVanilla_congr_type (m : Libm α) (S : α) (params : OptionParams α)
    (t1 t2 : String) (h : (t1 = "Call" ∨ t1 = "call") ↔ (t2 = "Call" ∨ t2 = "call")) :
    calculateVanilla m S { params with type := t1 } =
      calculateVanilla m S { params with type := t2 } := by
  have eI : isCall { params with type := t1 } ↔ isCall { params with type := t2 } := h
  unfold calculateVanilla
  simp only [eI]

/-- The barrier pricer reads the option type only through the test `isCall`. -/
theorem barrierPrice_congr_type (m : Libm α) (S : α) (params : OptionParams α)
    (t1 t2 : String) (h : (t1 = "Call" ∨ t1 = "call") ↔ (t2 = "Call" ∨ t2 = "call")) :
    barrierPrice m S { params with type := t1 } =
      barrierPrice m S { params with type := t2 } := by
  have eI : isCall { params with type := t1 } ↔ isCall { params with type := t2 } := h
  have eV : calculateVanilla m S { params with type := t1, barrierType := "None" } =
      calculateVanilla m S { params with type := t2, barrierType := "None" } :=
    calculateVanilla_congr_type m S { params with barrierType := "None" } t1 t2 h
  unfold barrierPrice knockOutPrice intrinsic barrierA barrierB barrierC barrierD barrierPhi
    barrierHSpow barrierX1 barrierX2 barrierY1 barrierY2 barrierMu
  simp only [eI, eV]

/-- The dispatcher reads the position token only through `positionMultiplier`. -/
theorem calculate_congr_position (m : Libm α) (S : α) (params : OptionParams α)
    (t1 t2 : String)
    (h : positionMultiplier { params with position := t1 } =
      positionMultiplier { params with position := t2 }) :
    calculate m S { params with position := t1 } =
      calculate m S { params with position := t2 } := by
  have hbp : ∀ (S1 K T v r q : α) (ty : String) (n : α) (bt : String) (H : α),
      barrierPrice m S1 ⟨K, T, v, r, q, ty, t1, n, bt, H⟩ =
        barrierPrice m S1 ⟨K, T, v, r, q, ty, t2, n, bt, H⟩ := fun _ _ _ _ _ _ _ _ _ _ => rfl
  have hv : calculateVanilla m S { params with position := t1 } =
      calculateVanilla m S { params with position := t2 } := rfl
  have hi : intrinsic S { params with position := t1 } =
      intrinsic S { params with position := t2 } := rfl
  have hb : hasBarrier { params with position := t1 } ↔
      hasBarrier { params with position := t2 } := Iff.rfl
  unfold calculate
  simp only [hbp, hv, hi, hb, h]

/-- C15: token matching.  `calculateVanilla` and `barrierPrice` return the same result for type
`"call"` as for type `"Call"`, and for every other type token (`"Put"`, `"CALL"`, the empty
string, ...) the same result as for type `"Put"`; `calculate` returns the same record for the
position tokens `"Short"`, `"short"` and `"-1"`, and for every other position token the same
record as for `"Long"`. -/
theorem token_matching (m : Libm α) (S : α) (params : OptionParams α) :
    calculateVanilla m S { params with type := "call" } =
        calculateVanilla m S { params with type := "Call" } ∧
      barrierPrice m S { params with type := "call" } =
        barrierPrice m S { params with type := "Call" } ∧
      (∀ t : String, t ≠ "Call" → t ≠ "call" →
        calculateVanilla m S { params with type := t } =
            calculateVanilla m S { params with type := "Put" } ∧
          barrierPrice m S { params with type := t } =
            barrierPrice m S { params with type := "Put" }) ∧
      calculate m S { params with position := "short" } =
        calculate m S { params with position := "Short" } ∧
      calculate m S { params with position := "-1" } =
        calculate m S { params with position := "Short" } ∧
      (∀ t : String, t ≠ "Short" → t ≠ "short" → t ≠ "-1" →
        calculate m S { params with position := t } =
          calculate m S { params with position := "Long" }) := by
  refine ⟨calculateVanilla_congr_type m S params _ _ (by decide),
    barrierPrice_congr_type m S params _ _ (by decide), fun t h1 h2 => ?_,
    calculate_congr_position m S params _ _ ?_, calculate_congr_position m S params _ _ ?_,
    fun t h1 h2 h3 => calculate_congr_position m S params _ _ ?_⟩
  · have h : (t = "Call" ∨ t = "call") ↔ (("Put" : String) = "Call" ∨ ("Put" : String) = "call") := by
      simp [h1, h2]
    exact ⟨calculateVanilla_congr_type m S params _ _ h, barrierPrice_congr_type m S params _ _ h⟩
  · simp [positionMultiplier]
  · simp [positionMultiplier]
  · simp [positionMultiplier, h1, h2, h3]

/-- The witness of C15: the type token `"CALL"` is priced as a put and the position token
`"long"` is treated as `"Long"`, for the up-and-out call `upOutCall` at spot 400. -/
theorem token_matching_witness :
    (calculateVanilla realLibm 400 { (upOutCall : OptionParams ℝ) with type := "CALL" } =
          calculateVanilla realLibm 400 { (upOutCall : OptionParams ℝ) with type := "Put" } ∧
        barrierPrice realLibm 400 { (upOutCall : OptionParams ℝ) with type := "CALL" } =
          barrierPrice realLibm 400 { (upOutCall : OptionParams ℝ) with type := "Put" }) ∧
      calculate realLibm 400 { (upOutCall : OptionParams ℝ) with position := "long" } =
        calculate realLibm 400 { (upOutCall : OptionParams ℝ) with position := "Long" } :=
  ⟨(token_matching realLibm 400 upOutCall).2.2.1 "CALL" (by decide) (by decide),
    (token_matching realLibm 400 upOutCall).2.2.2.2.2 "long" (by decide) (by decide)
      (by decide)⟩

/-! ## C16 -/

theorem calculate_barrier_payoff (m : Libm α) (S : α) (params : OptionParams α)
    (h : hasBarrier params) :
    (calculate m S params).payoff =
      (if barrierActive S params then intrinsic S params else 0) *
        (positionMultiplier params * params.quantity) := by
  unfold calculate barrierActive
  simp only [if_neg (not_not.mpr h)]

/-- On the degenerate path the knock logic of `barrierPrice` agrees with the `active` test of
`calculate`, for every barrier type token. -/
theorem barrierPrice_degenerate_eq_active (m : Libm α) (S : α) (params : OptionParams α)
    (hdeg : params.timeToMaturity ≤ 0 ∨ params.volatility ≤ 0 ∨ params.barrierLevel ≤ 0) :
    barrierPrice m S params = if barrierActive S params then intrinsic S params else 0 := by
  unfold barrierPrice barrierActive
  simp only [if_pos hdeg]
  by_cases h1 : params.barrierType = "UpOut"
  · by_cases hs : S ≥ params.barrierLevel <;> simp [h1, hs]
  · by_cases h2 : params.barrierType = "DownOut"
    · by_cases hs : S ≤ params.barrierLevel <;> simp [h2, hs]
    · by_cases h3 : params.barrierType = "UpIn"
      · by_cases hs : S < params.barrierLevel
        · simp [h3, hs, not_le.mpr hs]
        · simp [h3, hs, not_lt.mp hs]
      · by_cases h4 : params.barrierType = "DownIn"
        · by_cases hs : S > params.barrierLevel
          · simp [h4, hs, not_le.mpr hs]
          · simp [h4, hs, not_lt.mp hs]
        · simp [h1, h2, h3, h4]

/-- C16: for a record with a barrier (any non-empty barrier type other than `"None"`,
recognized or not) on degenerate inputs (`T ≤ 0` or `σ ≤ 0` or `H ≤ 0`), the payoff that
`calculate` derives from its `active` test equals the price that `barrierPrice` returns, so
`calculate` returns `payoff = price` and `timeValue = 0`. -/
theorem calculate_barrier_degenerate_timeValue (m : Libm α) (S : α) (params : OptionParams α)
    (hb : params.barrierType ≠ "" ∧ params.barrierType ≠ "None")
    (hdeg : params.timeToMaturity ≤ 0 ∨ params.volatility ≤ 0 ∨ params.barrierLevel ≤ 0) :
    (if barrierActive S params then intrinsic S params else 0) = barrierPrice m S params ∧
      (calculate m S params).payoff = (calculate m S params).price ∧
      (calculate m S params).timeValue = 0 := by
  have hbar : hasBarrier params := hb
  have hpay : (calculate m S params).payoff = (calculate m S params).price := by
    rw [calculate_barrier_payoff m S params hbar, calculate_barrier_price m S params hbar,
      barrierPrice_degenerate_eq_active m S params hdeg]
  refine ⟨(barrierPrice_degenerate_eq_active m S params hdeg).symm, hpay, ?_⟩
  rw [calculate_barrier_payoff_timeValue m S params hbar, hpay, sub_self]

/-- The witness of C16: the reference call with the unrecognized barrier token `"UpAndOut"`,
at expiry (`T = 0`), spot 130. -/
theorem calculate_barrier_degenerate_timeValue_witness :
    (calculate realLibm 130
      { referenceBarrier "Call" "Long" 1 "UpAndOut" 120 with timeToMaturity := 0 }).timeValue
        = 0 :=
  (calculate_barrier_degenerate_timeValue realLibm 130
    { referenceBarrier "Call" "Long" 1 "UpAndOut" 120 with timeToMaturity := 0 }
    ⟨by decide, by decide⟩ (Or.inl (le_refl (0 : ℝ)))).2.2

/-! ## C17 -/

/-- At or after expiry (`T ≤ 0`) `barrierPrice` is on its degenerate path whatever the
volatility and the rate are, and its value does not depend on them. -/
theorem barrierPrice_expired (m : Libm α) (S : α) (params : OptionParams α)
    (hT : params.timeToMaturity ≤ 0) (v r : α) :
    barrierPrice m S { params with volatility := v, riskFreeRate := r } =
      barrierPrice m S params := by
  have h1 : params.timeToMaturity ≤ 0 ∨ v ≤ 0 ∨ params.barrierLevel ≤ 0 := Or.inl hT
  have h2 : params.timeToMaturity ≤ 0 ∨ params.volatility ≤ 0 ∨ params.barrierLevel ≤ 0 :=
    Or.inl hT
  unfold barrierPrice
  simp only [if_pos h1, if_pos h2]
  rfl

/-- C17: for a record with a barrier and `timeToMaturity ≤ 0` (any `σ`, `r`, `q`, `H`,
position and quantity), `calculate` returns `theta`, `vega`, `rho`, `zomma`, `color`, `vanna`,
`volga` and `ultima` all equal to `0`: every volatility-bumped and rate-bumped evaluation of
`barrierPrice` stays on the degenerate path and returns the value of the unbumped evaluation
at the same spot. -/
theorem calculate_barrier_expired_greeks (m : Libm α) (S : α) (params : OptionParams α)
    (hb : params.barrierType ≠ "" ∧ params.barrierType ≠ "None")
    (hT : params.timeToMaturity ≤ 0) :
    (∀ (S1 v r : α), barrierPrice m S1 { params with volatility := v, riskFreeRate := r } =
        barrierPrice m S1 params) ∧
      (calculate m S params).theta = 0 ∧ (calculate m S params).vega = 0 ∧
      (calculate m S params).rho = 0 ∧ (calculate m S params).zomma = 0 ∧
      (calculate m S params).color = 0 ∧ (calculate m S params).vanna = 0 ∧
      (calculate m S params).volga = 0 ∧ (calculate m S params).ultima = 0 := by
  have hbar : hasBarrier params := hb
  have hT1 : ¬ params.timeToMaturity > 1 / 365 := by
    have : (0 : α) < 1 / 365 := by norm_num
    exact not_lt.mpr (le_trans hT this.le)
  have hbp : ∀ (S1 v r : α),
      barrierPrice m S1 { params with volatility := v, riskFreeRate := r } =
        barrierPrice m S1 params := fun S1 v r => barrierPrice_expired m S1 params hT v r
  refine ⟨hbp, ?_, ?_, ?_, ?_, ?_, ?_, ?_, ?_⟩
  · rw [calculate_barrier_theta m S params hbar, if_neg hT1, zero_mul]
  · unfold calculate
    simp only [if_neg (not_not.mpr hbar), hbp]
    ring
  · unfold calculate
    simp only [if_neg (not_not.mpr hbar), hbp]
    ring
  · unfold calculate
    simp only [if_neg (not_not.mpr hbar), hbp]
    ring
  · exact calculate_barrier_color_zero m S params hbar hT1
  · unfold calculate
    simp only [if_neg (not_not.mpr hbar), hbp]
    ring
  · unfold calculate
    simp only [if_neg (not_not.mpr hbar), hbp]
    ring
  · unfold calculate
    simp only [if_neg (not_not.mpr hbar), hbp]
    ring

/-- The witness of C17: the reference up-and-out call with barrier 120 at expiry (`T = 0`),
spot 110. -/
theorem calculate_barrier_expired_greeks_witness :
    (calculate realLibm 110
        { referenceBarrier "Call" "Long" 1 "UpOut" 120 with timeToMaturity := 0 }).vega = 0 ∧
      (calculate realLibm 110
        { referenceBarrier "Call" "Long" 1 "UpOut" 120 with timeToMaturity := 0 }).ultima = 0 :=
  ⟨(calculate_barrier_expired_greeks realLibm 110
      { referenceBarrier "Call" "Long" 1 "UpOut" 120 with timeToMaturity := 0 }
      ⟨by decide, by decide⟩ (le_refl (0 : ℝ))).2.2.1,
    (calculate_barrier_expired_greeks realLibm 110
      { referenceBarrier "Call" "Long" 1 "UpOut" 120 with timeToMaturity := 0 }
      ⟨by decide, by decide⟩ (le_refl (0 : ℝ))).2.2.2.2.2.2.2.2⟩

/-! ## C18 -/

theorem gauss_tail_pos (x : ℝ) : 0 < ∫ t in Set.Ioi x, Real.exp (-t ^ 2) := by
  rw [MeasureTheory.setIntegral_pos_iff_support_of_nonneg_ae
    (Filter.Eventually.of_forall fun _ => (Real.exp_pos _).le) integrable_gauss.integrableOn]
  have hsupp : Function.support (fun t : ℝ => Real.exp (-t ^ 2)) = Set.univ := by
    ext t
    simp [Function.mem_support, (Real.exp_pos _).ne.symm]
  rw [hsupp, Set.univ_inter, Real.volume_Ioi]
  exact ENNReal.zero_lt_top

theorem normalCDF_pos (x : ℝ) : 0 < normalCDF realLibm x := by
  rw [normalCDF_real]
  unfold erfcReal
  have := gauss_tail_pos (-x * (1 / Real.sqrt 2))
  have h2 : 0 < 2 / Real.sqrt Real.pi := div_pos two_pos sqrt_pi_pos
  positivity

theorem normalCDF_lt_one (x : ℝ) : normalCDF realLibm x < 1 := by
  have h1 := normalCDF_add_neg x
  have h2 := normalCDF_pos (-x)
  linarith

theorem calculateVanilla_gamma (m : Libm α) (S : α) (params : OptionParams α)
    (h : ¬ (params.timeToMaturity ≤ 0 ∨ params.volatility ≤ 0)) :
    (calculateVanilla m S params).gamma =
      m.exp (-params.dividendYield * params.timeToMaturity) *
          normalPDF m (vanillaD1 m S params) /
        (S * params.volatility * m.sqrt params.timeToMaturity) := by
  unfold calculateVanilla vanillaD1
  by_cases hc : isCall params
  · simp only [if_neg h, if_pos hc]
  · simp only [if_neg h, if_neg hc]

theorem calculateVanilla_vega (m : Libm α) (S : α) (params : OptionParams α)
    (h : ¬ (params.timeToMaturity ≤ 0 ∨ params.volatility ≤ 0)) :
    (calculateVanilla m S params).vega =
      S * m.exp (-params.dividendYield * params.timeToMaturity) *
          m.sqrt params.timeToMaturity * normalPDF m (vanillaD1 m S params) := by
  unfold calculateVanilla vanillaD1
  by_cases hc : isCall params
  · simp only [if_neg h, if_pos hc]
  · simp only [if_neg h, if_neg hc]

theorem calculateVanilla_delta_call (m : Libm α) (S : α) (params : OptionParams α)
    (h : ¬ (params.timeToMaturity ≤ 0 ∨ params.volatility ≤ 0)) (hc : isCall params) :
    (calculateVanilla m S params).delta =
      m.exp (-params.dividendYield * params.timeToMaturity) *
        normalCDF m (vanillaD1 m S params) := by
  unfold calculateVanilla vanillaD1
  simp only [if_neg h, if_pos hc]

theorem calculateVanilla_delta_put (m : Libm α) (S : α) (params : OptionParams α)
    (h : ¬ (params.timeToMaturity ≤ 0 ∨ params.volatility ≤ 0)) (hc : ¬ isCall params) :
    (calculateVanilla m S params).delta =
      -m.exp (-params.dividendYield * params.timeToMaturity) *
        normalCDF m (-vanillaD1 m S params) := by
  unfold calculateVanilla vanillaD1
  simp only [if_neg h, if_neg hc]

/-- C18: for `S > 0`, `K > 0`, `T > 0`, `σ > 0` and every `r`, `q`, the unscaled record of
`calculateVanilla` has `gamma > 0` and `vega > 0`, a call delta strictly between `0` and
`e^{-qT}`, a put delta strictly between `−e^{-qT}` and `0`, and the call delta minus the put
delta (all other parameters identical) equals `e^{-qT}`, with the exact math library over the
reals. -/
theorem calculateVanilla_greeks_signs (S : ℝ) (params : OptionParams ℝ) (hS : 0 < S)
    (_hK : 0 < params.strike) (hT : 0 < params.timeToMaturity) (hv : 0 < params.volatility) :
    0 < (calculateVanilla realLibm S params).gamma ∧
      0 < (calculateVanilla realLibm S params).vega ∧
      (isCall params →
        0 < (calculateVanilla realLibm S params).delta ∧
          (calculateVanilla realLibm S params).delta <
            Real.exp (-(params.dividendYield * params.timeToMaturity))) ∧
      (¬ isCall params →
        -Real.exp (-(params.dividendYield * params.timeToMaturity)) <
            (calculateVanilla realLibm S params).delta ∧
          (calculateVanilla realLibm S params).delta < 0) ∧
      (calculateVanilla realLibm S { params with type := "Call" }).delta -
          (calculateVanilla realLibm S { params with type := "Put" }).delta =
        Real.exp (-(params.dividendYield * params.timeToMaturity)) := by
  have hstd : ¬ (params.timeToMaturity ≤ 0 ∨ params.volatility ≤ 0) := by
    rintro (h | h) <;> linarith
  have hsT : 0 < Real.sqrt params.timeToMaturity := Real.sqrt_pos.mpr hT
  have he : realLibm.exp (-params.dividendYield * params.timeToMaturity) =
      Real.exp (-(params.dividendYield * params.timeToMaturity)) := by
    rw [neg_mul]; rfl
  have hepos : 0 < Real.exp (-(params.dividendYield * params.timeToMaturity)) := Real.exp_pos _
  have hpdf := normalPDF_pos (vanillaD1 realLibm S params)
  refine ⟨?_, ?_, fun hc => ?_, fun hc => ?_, ?_⟩
  · rw [calculateVanilla_gamma _ _ _ hstd, he]
    have hs : realLibm.sqrt params.timeToMaturity = Real.sqrt params.timeToMaturity := rfl
    rw [hs]
    positivity
  · rw [calculateVanilla_vega _ _ _ hstd, he]
    have hs : realLibm.sqrt params.timeToMaturity = Real.sqrt params.timeToMaturity := rfl
    rw [hs]
    positivity
  · rw [calculateVanilla_delta_call _ _ _ hstd hc, he]
    have h0 := normalCDF_pos (vanillaD1 realLibm S params)
    have h1 := normalCDF_lt_one (vanillaD1 realLibm S params)
    constructor
    · positivity
    · nlinarith
  · rw [calculateVanilla_delta_put _ _ _ hstd hc, he]
    have h0 := normalCDF_pos (-vanillaD1 realLibm S params)
    have h1 := normalCDF_lt_one (-vanillaD1 realLibm S params)
    constructor
    · nlinarith
    · nlinarith
  · have hcc : isCall { params with type := "Call" } := Or.inl rfl
    have hpp : ¬ isCall { params with type := "Put" } := by simp [isCall]
    rw [calculateVanilla_delta_call _ _ { params with type := "Call" } hstd hcc,
      calculateVanilla_delta_put _ _ { params with type := "Put" } hstd hpp]
    have e1 : vanillaD1 realLibm S { params with type := "Put" } =
        vanillaD1 realLibm S { params with type := "Call" } := rfl
    rw [e1]
    have n1 := normalCDF_add_neg (vanillaD1 realLibm S { params with type := "Call" })
    simp only [realLibm, neg_mul] at *
    linear_combination Real.exp (-(params.dividendYield * params.timeToMaturity)) * n1

/-- The witness of C18: the reference call at spot 100. -/
theorem calculateVanilla_greeks_signs_witness :
    0 < (calculateVanilla realLibm 100 (referenceParams "Call" "Long" 1)).gamma ∧
      0 < (calculateVanilla realLibm 100 (referenceParams "Call" "Long" 1)).vega :=
  ⟨(calculateVanilla_greeks_signs 100 (referenceParams "Call" "Long" 1) (by norm_num)
      (by simp [referenceParams]) (by simp [referenceParams])
      (by simp only [referenceParams]; norm_num)).1,
    (calculateVanilla_greeks_signs 100 (referenceParams "Call" "Long" 1) (by norm_num)
      (by simp [referenceParams]) (by simp [referenceParams])
      (by simp only [referenceParams]; norm_num)).2.1⟩

/-! ## C14: numerical bounds on the normal distribution function -/

/-- The Taylor polynomial of degree 3 of `exp (-s)` with the remainder bound `5/96 · s⁴`. -/
theorem exp_neg_taylor (s : ℝ) (hs0 : 0 ≤ s) (hs1 : s ≤ 1) :
    1 - s + s ^ 2 / 2 - s ^ 3 / 6 - 5 / 96 * s ^ 4 ≤ Real.exp (-s) ∧
      Real.exp (-s) ≤ 1 - s + s ^ 2 / 2 - s ^ 3 / 6 + 5 / 96 * s ^ 4 := by
  have h := Real.exp_bound (x := -s) (by rw [abs_neg, abs_of_nonneg hs0]; exact hs1)
    (n := 4) (by norm_num)
  rw [abs_neg, abs_of_nonneg hs0] at h
  simp only [Finset.sum_range_succ, Finset.sum_range_zero, Nat.factorial] at h
  norm_num at h
  have h2 := abs_le.mp h
  constructor <;> nlinarith [h2.1, h2.2]

theorem poly_integral (y c : ℝ) :
    ∫ t in (0 : ℝ)..y, (1 - t ^ 2 + 1 / 2 * t ^ 4 - 1 / 6 * t ^ 6 + c * t ^ 8) =
      y - y ^ 3 / 3 + y ^ 5 / 10 - y ^ 7 / 42 + c * y ^ 9 / 9 := by
  have e : ∀ t : ℝ, HasDerivAt
      (fun t : ℝ => t - t ^ 3 / 3 + t ^ 5 / 10 - t ^ 7 / 42 + c * t ^ 9 / 9)
      (1 - t ^ 2 + 1 / 2 * t ^ 4 - 1 / 6 * t ^ 6 + c * t ^ 8) t := by
    intro t
    have h1 := hasDerivAt_id t
    have h3 := (hasDerivAt_pow 3 t).div_const 3
    have h5 := (hasDerivAt_pow 5 t).div_const 10
    have h7 := (hasDerivAt_pow 7 t).div_const 42
    have h9 := ((hasDerivAt_pow 9 t).const_mul c).div_const 9
    have key := (((h1.sub h3).add h5).sub h7).add h9
    convert key using 1
    norm_num
    ring
  rw [intervalIntegral.integral_eq_sub_of_hasDerivAt (fun t _ => e t)]
  · norm_num
  · exact Continuous.intervalIntegrable (by continuity) _ _

/-- Polynomial bounds on `∫_0^y exp (-t²) dt` for `0 ≤ y ≤ 1`. -/
theorem gauss_integral_bounds (y : ℝ) (hy0 : 0 ≤ y) (hy1 : y ≤ 1) :
    y - y ^ 3 / 3 + y ^ 5 / 10 - y ^ 7 / 42 - 5 / 96 * y ^ 9 / 9 ≤
        ∫ t in (0 : ℝ)..y, Real.exp (-t ^ 2) ∧
      ∫ t in (0 : ℝ)..y, Real.exp (-t ^ 2) ≤
        y - y ^ 3 / 3 + y ^ 5 / 10 - y ^ 7 / 42 + 5 / 96 * y ^ 9 / 9 := by
  have hg : IntervalIntegrable (fun t : ℝ => Real.exp (-t ^ 2)) MeasureTheory.volume 0 y :=
    Continuous.intervalIntegrable (by continuity) _ _
  have hp : ∀ c : ℝ, IntervalIntegrable
      (fun t : ℝ => 1 - t ^ 2 + 1 / 2 * t ^ 4 - 1 / 6 * t ^ 6 + c * t ^ 8)
      MeasureTheory.volume 0 y :=
    fun c => Continuous.intervalIntegrable (by continuity) _ _
  have hpt : ∀ t ∈ Set.Icc (0 : ℝ) y,
      1 - t ^ 2 + 1 / 2 * t ^ 4 - 1 / 6 * t ^ 6 + -(5 / 96) * t ^ 8 ≤ Real.exp (-t ^ 2) ∧
        Real.exp (-t ^ 2) ≤ 1 - t ^ 2 + 1 / 2 * t ^ 4 - 1 / 6 * t ^ 6 + 5 / 96 * t ^ 8 := by
    intro t ht
    have ht1 : t ≤ 1 := le_trans ht.2 hy1
    have hs1 : t ^ 2 ≤ 1 := by nlinarith [ht.1]
    have key := exp_neg_taylor (t ^ 2) (sq_nonneg t) hs1
    constructor
    · refine le_trans (le_of_eq ?_) key.1
      ring
    · refine le_trans key.2 (le_of_eq ?_)
      ring
  constructor
  · have h := intervalIntegral.integral_mono_on hy0 (hp (-(5 / 96))) hg fun t ht => (hpt t ht).1
    rw [poly_integral] at h
    linarith
  · have h := intervalIntegral.integral_mono_on hy0 hg (hp (5 / 96)) fun t ht => (hpt t ht).2
    rw [poly_integral] at h
    linarith

/-- The tail integral from `-y` is half the Gaussian integral plus the integral over
`[0, y]`. -/
theorem gauss_tail_neg_eq (y : ℝ) :
    ∫ t in Set.Ioi (-y), Real.exp (-t ^ 2) =
      Real.sqrt Real.pi / 2 + ∫ t in (0 : ℝ)..y, Real.exp (-t ^ 2) := by
  have h0 : ∫ t in Set.Iic (0 : ℝ), Real.exp (-t ^ 2) = Real.sqrt Real.pi / 2 := by
    have h1 := gauss_tail_add_neg 0
    have h2 := gauss_tail_neg 0
    rw [neg_zero] at h1 h2
    linarith
  have h := intervalIntegral.integral_Iic_sub_Iic (a := 0) (b := y)
    (integrable_gauss.integrableOn) (integrable_gauss.integrableOn)
  rw [gauss_tail_neg]
  linarith

/-- For every `x`, `N(x) = 1/2 + (∫_0^{x/√2} exp (-t²) dt) / √π`. -/
theorem normalCDF_eq_half_add (x : ℝ) :
    normalCDF realLibm x =
      1 / 2 + (∫ t in (0 : ℝ)..(x * (1 / Real.sqrt 2)), Real.exp (-t ^ 2)) / Real.sqrt Real.pi := by
  rw [normalCDF_real]
  unfold erfcReal
  rw [show -x * (1 / Real.sqrt 2) = -(x * (1 / Real.sqrt 2)) by ring, gauss_tail_neg_eq]
  have hpi : Real.sqrt Real.pi / Real.sqrt Real.pi = 1 := div_self sqrt_pi_pos.ne.symm
  generalize (∫ t in (0 : ℝ)..(x * (1 / Real.sqrt 2)), Real.exp (-t ^ 2)) = I
  calc 1 / 2 * (2 / Real.sqrt Real.pi * (Real.sqrt Real.pi / 2 + I))
      = Real.sqrt Real.pi / Real.sqrt Real.pi / 2 + I / Real.sqrt Real.pi := by ring
    _ = 1 / 2 + I / Real.sqrt Real.pi := by rw [hpi]

/-- Polynomial bounds on `N(x)` for `0 ≤ x ≤ 1`, with `z = x²/2`:
`N(x) = 1/2 + x/√(2π) · (1 − z/3 + z²/10 − z³/42 ± 5z⁴/864)`. -/
theorem normalCDF_bounds (x : ℝ) (hx0 : 0 ≤ x) (hx1 : x ≤ 1) :
    1 / 2 + x * (1 / Real.sqrt (2 * Real.pi)) *
          (1 - (x ^ 2 / 2) / 3 + (x ^ 2 / 2) ^ 2 / 10 - (x ^ 2 / 2) ^ 3 / 42 -
            5 / 864 * (x ^ 2 / 2) ^ 4) ≤ normalCDF realLibm x ∧
      normalCDF realLibm x ≤
        1 / 2 + x * (1 / Real.sqrt (2 * Real.pi)) *
          (1 - (x ^ 2 / 2) / 3 + (x ^ 2 / 2) ^ 2 / 10 - (x ^ 2 / 2) ^ 3 / 42 +
            5 / 864 * (x ^ 2 / 2) ^ 4) := by
  have h2 : 0 < Real.sqrt 2 := Real.sqrt_pos.mpr two_pos
  have hsq2 : Real.sqrt 2 * Real.sqrt 2 = 2 := Real.mul_self_sqrt zero_le_two
  have hpi := sqrt_pi_pos
  have hinv : 0 ≤ 1 / Real.sqrt 2 := by positivity
  have hinv1 : 1 / Real.sqrt 2 ≤ 1 := by
    rw [div_le_one h2]
    nlinarith
  have hy0 : 0 ≤ x * (1 / Real.sqrt 2) := mul_nonneg hx0 hinv
  have hy1 : x * (1 / Real.sqrt 2) ≤ 1 := by nlinarith
  have hysq : (x * (1 / Real.sqrt 2)) ^ 2 = x ^ 2 / 2 := by
    rw [mul_pow, one_div, inv_pow, Real.sq_sqrt zero_le_two]
    ring
  have hs2pi : Real.sqrt (2 * Real.pi) = Real.sqrt 2 * Real.sqrt Real.pi :=
    Real.sqrt_mul zero_le_two _
  have hc : x * (1 / Real.sqrt (2 * Real.pi)) =
      x * (1 / Real.sqrt 2) / Real.sqrt Real.pi := by
    rw [hs2pi]
    field_simp
  obtain ⟨hlo, hhi⟩ := gauss_integral_bounds (x * (1 / Real.sqrt 2)) hy0 hy1
  rw [normalCDF_eq_half_add, hc]
  generalize (∫ t in (0 : ℝ)..(x * (1 / Real.sqrt 2)), Real.exp (-t ^ 2)) = I at hlo hhi
  generalize x * (1 / Real.sqrt 2) = y at hysq hlo hhi hy0
  have e3 : y ^ 3 = y * (x ^ 2 / 2) := by rw [← hysq]; ring
  have e5 : y ^ 5 = y * (x ^ 2 / 2) ^ 2 := by rw [← hysq]; ring
  have e7 : y ^ 7 = y * (x ^ 2 / 2) ^ 3 := by rw [← hysq]; ring
  have e9 : y ^ 9 = y * (x ^ 2 / 2) ^ 4 := by rw [← hysq]; ring
  rw [e3, e5, e7, e9] at hlo hhi
  constructor
  · rw [add_le_add_iff_left, div_mul_eq_mul_div, div_le_div_iff_of_pos_right hpi]
    linarith
  · rw [add_le_add_iff_left, div_mul_eq_mul_div, div_le_div_iff_of_pos_right hpi]
    linarith

theorem inv_sqrt_two_pi_bounds :
    0.39894228 < 1 / Real.sqrt (2 * Real.pi) ∧ 1 / Real.sqrt (2 * Real.pi) < 0.398942281 := by
  have hpos : 0 < Real.sqrt (2 * Real.pi) := Real.sqrt_pos.mpr (by positivity)
  constructor
  · rw [lt_one_div (by norm_num) hpos, Real.sqrt_lt' (by norm_num)]
    have := Real.pi_lt_d20
    norm_num at this ⊢
    linarith
  · rw [one_div_lt hpos (by norm_num), Real.lt_sqrt (by norm_num)]
    have := Real.pi_gt_d20
    norm_num at this ⊢
    linarith

theorem normalCDF_035 :
    0.63683063 < normalCDF realLibm 0.35 ∧ normalCDF realLibm 0.35 < 0.63683066 := by
  obtain ⟨hlo, hhi⟩ := normalCDF_bounds 0.35 (by norm_num) (by norm_num)
  obtain ⟨ha, hb⟩ := inv_sqrt_two_pi_bounds
  generalize 1 / Real.sqrt (2 * Real.pi) = c at hlo hhi ha hb
  generalize normalCDF realLibm 0.35 = n at hlo hhi ⊢
  norm_num at hlo hhi ha hb ⊢
  constructor <;> linarith

theorem normalCDF_015 :
    0.55961769 < normalCDF realLibm 0.15 ∧ normalCDF realLibm 0.15 < 0.55961770 := by
  obtain ⟨hlo, hhi⟩ := normalCDF_bounds 0.15 (by norm_num) (by norm_num)
  obtain ⟨ha, hb⟩ := inv_sqrt_two_pi_bounds
  generalize 1 / Real.sqrt (2 * Real.pi) = c at hlo hhi ha hb
  generalize normalCDF realLibm 0.15 = n at hlo hhi ⊢
  norm_num at hlo hhi ha hb ⊢
  constructor <;> linarith

theorem exp_neg_005 :
    0.95122942 < Real.exp (-0.05) ∧ Real.exp (-0.05) < 0.95122944 := by
  have hx : |(-(1 / 20) : ℝ)| = 1 / 20 := by rw [abs_neg, abs_of_pos (by norm_num)]
  have h := Real.exp_bound (x := -(1 / 20)) (by rw [hx]; norm_num) (n := 5) (by norm_num)
  rw [hx] at h
  simp only [Finset.sum_range_succ, Finset.sum_range_zero, Nat.factorial] at h
  norm_num at h
  have h2 := abs_le.mp h
  rw [show (-0.05 : ℝ) = -(1 / 20) by norm_num]
  norm_num at h2 ⊢
  constructor <;> linarith [h2.1, h2.2]

/-- C14: the reference scenario.  For `S = 100`, `K = 100`, `T = 1`, `σ = 0.2`, `r = 0.05`,
`q = 0`, type `Call`, position `Long`, quantity 1 and no barrier, `calculate` returns a price
within `0.0001` of `10.4506` and a delta within `0.0001` of `0.6368`, with the exact math
library over the reals; here `d1 = 0.35` and `d2 = 0.15`. -/
theorem reference_price_delta :
    |(calculate realLibm 100 (referenceParams "Call" "Long" 1)).price - 10.4506| < 0.0001 ∧
      |(calculate realLibm 100 (referenceParams "Call" "Long" 1)).delta - 0.6368| < 0.0001 ∧
      vanillaD1 realLibm 100 (referenceParams "Call" "Long" 1) = 0.35 ∧
      vanillaD2 realLibm 100 (referenceParams "Call" "Long" 1) = 0.15 := by
  have hstd := reference_standard "Call" "Long" 1
  have hc : isCall (referenceParams "Call" "Long" (1 : ℝ)) := Or.inl rfl
  have hm : positionMultiplier (referenceParams "Call" "Long" (1 : ℝ)) *
      (referenceParams "Call" "Long" (1 : ℝ)).quantity = 1 := by
    simp [positionMultiplier, referenceParams]
  have hq : realLibm.exp (-(referenceParams "Call" "Long" (1 : ℝ)).dividendYield *
      (referenceParams "Call" "Long" (1 : ℝ)).timeToMaturity) = 1 := by
    simp [referenceParams, realLibm]
  have hr : realLibm.exp (-(referenceParams "Call" "Long" (1 : ℝ)).riskFreeRate *
      (referenceParams "Call" "Long" (1 : ℝ)).timeToMaturity) = Real.exp (-0.05) := by
    simp only [referenceParams, realLibm, mul_one]
  have hK : (referenceParams "Call" "Long" (1 : ℝ)).strike = 100 := rfl
  have hprice : (calculate realLibm 100 (referenceParams "Call" "Long" 1)).price =
      100 * normalCDF realLibm 0.35 - 100 * Real.exp (-0.05) * normalCDF realLibm 0.15 := by
    rw [calculate_noBarrier _ _ _ (reference_not_hasBarrier _ _ _)]
    simp only
    rw [hm, mul_one, calculateVanilla_price_call _ _ _ hstd hc, reference_d1, reference_d2, hq,
      hr, hK, mul_one]
  have hdelta : (calculate realLibm 100 (referenceParams "Call" "Long" 1)).delta =
      normalCDF realLibm 0.35 := by
    rw [calculate_noBarrier _ _ _ (reference_not_hasBarrier _ _ _)]
    simp only
    rw [hm, mul_one, calculateVanilla_delta_call _ _ _ hstd hc, reference_d1, hq, one_mul]
  obtain ⟨a1, b1⟩ := normalCDF_035
  obtain ⟨a2, b2⟩ := normalCDF_015
  obtain ⟨ae, be⟩ := exp_neg_005
  refine ⟨?_, ?_, reference_d1 _ _ _, reference_d2 _ _ _⟩
  · rw [hprice, abs_lt]
    generalize normalCDF realLibm 0.35 = n1 at a1 b1 ⊢
    generalize normalCDF realLibm 0.15 = n2 at a2 b2 ⊢
    generalize Real.exp (-0.05) = e at ae be ⊢
    norm_num at a1 b1 a2 b2 ae be ⊢
    constructor <;> nlinarith
  · rw [hdelta, abs_lt]
    norm_num at a1 b1 ⊢
    constructor <;> linarith

end BlackScholes
